import Mathlib

/-!
# Draw & Progression Engine — verification of the rallydesk backend

Shallow embedding of the tournament draw/progression engine of
`backend/server.py`.  Python dict-shaped match documents become a `Match`
structure (a key that a given code path never writes is `none`); MongoDB
collections become Lean lists in insertion order, `find_one`/`update_one`
act on the first element matching the filter; `random.shuffle` and
`random` seeding are modelled by passing the already-shuffled list (the
theorems quantify over it); `uuid4` match ids are modelled by the
(unique, sequential) `match_number` of the generation; `datetime.now` is
an opaque string parameter.  HTTP handlers become functions
`DB → Except HErr …` mirroring the handler body after its authentication
guards (authentication is outside the engine, spec §1).
-/

namespace RallyDesk

/-- Python truthiness of an optional string (`None` and `""` are falsy). -/
def truthyS : Option String → Bool
  | none => false
  | some s => s ≠ ""

/-- `SetScore` Pydantic model (`set_number`, `score1`, `score2`). -/
structure SetScore where
  set_number : Int
  score1 : Int
  score2 : Int
deriving DecidableEq

/-- Python truthiness of an optional list (`None` and `[]` are falsy). -/
def truthyScores : Option (List SetScore) → Bool
  | none => false
  | some l => !l.isEmpty

/-- A match document, with every key the draw generators and the
progression handlers read or write.  `seed1`/`seed2` and `bracket_type`
are keys only some generators add; they are `none` where the Python dict
lacks the key. -/
structure Match where
  id : Nat
  tournament_id : String
  competition_id : String
  round_number : Nat
  match_number : Nat
  group_number : Option Nat
  participant1_id : Option String
  participant2_id : Option String
  seed1 : Option Nat
  seed2 : Option Nat
  winner_id : Option String
  resource_id : Option String
  scheduled_time : Option String
  status : String
  scores : List SetScore
  bracket_position : String
  bracket_type : Option String
  next_match_id : Option Nat
  created_at : String
deriving DecidableEq

/-- `create_seeded_bracket_order`'s interleaving loop
(`for i in range(half): result.append(top_half[i]); result.append(bottom_half[i])`),
for the equal-length lists the bracket sizes produce. -/
def interleave : List Nat → List Nat → List Nat
  | x :: xs, y :: ys => x :: y :: interleave xs ys
  | _, _ => []

/-- `create_seeded_bracket_order(size)` body, with structural fuel so the
kernel can evaluate it (`fuel = size` suffices: the recursive call
halves `size`, see `create_seeded_bracket_order_eq`). -/
def csoAux : Nat → Nat → List Nat
  | 0, _ => [0]
  | fuel + 1, size =>
    if size ≤ 1 then [0]
    else if size = 2 then [0, 1]
    else
      let half := size / 2
      let top_half := csoAux fuel half
      let bottom_half := top_half.map (fun i => size - 1 - i)
      interleave top_half bottom_half

/-- `create_seeded_bracket_order(size)`: `[0]` for `size <= 1`, `[0, 1]`
for `size == 2`, else recurse on `half = size // 2`, mirror the top half
as `size - 1 - i` and interleave. -/
def create_seeded_bracket_order (size : Nat) : List Nat := csoAux size size

/-- `math.ceil(math.log2(n))` (exact for the integer inputs the engine
sees), with structural fuel so the kernel can evaluate it. -/
def clog2Aux : Nat → Nat → Nat
  | 0, _ => 0
  | fuel + 1, n => if n ≤ 1 then 0 else clog2Aux fuel ((n + 1) / 2) + 1

def ceil_log2 (n : Nat) : Nat := clog2Aux n n

/-! ## Draw generation algorithms -/

/-- The unordered pairs `(participants[i], participants[j])`, `i < j`, in
the order the nested `for i`/`for j` loops of the round-robin generators
produce them. -/
def rrPairs : List String → List (String × String)
  | [] => []
  | x :: rest => rest.map (fun y => (x, y)) ++ rrPairs rest

/-- Round-robin match records, numbered from `k` (`generate_round_robin_matches`
builds one match per pair with `round_number=1`, `group_number=1`). -/
def buildRRMatches (competition_id tournament_id now : String) : Nat → List (String × String) → List Match
  | _, [] => []
  | k, (p, q) :: rest =>
    { id := k, tournament_id := tournament_id, competition_id := competition_id,
      round_number := 1, match_number := k, group_number := some 1,
      participant1_id := some p, participant2_id := some q,
      seed1 := none, seed2 := none, winner_id := none, resource_id := none,
      scheduled_time := none, status := "pending", scores := [],
      bracket_position := "RR-M" ++ toString k, bracket_type := none,
      next_match_id := none, created_at := now }
      :: buildRRMatches competition_id tournament_id now (k + 1) rest

/-- `generate_round_robin_matches`. -/
def generate_round_robin_matches (participant_ids : List String)
    (competition_id tournament_id now : String) : List Match :=
  buildRRMatches competition_id tournament_id now 1 (rrPairs participant_ids)

/-- First-round auto-bye resolution shared by both single-elimination
generators: a match whose `participant2_id` is `None` while
`participant1_id` is truthy (or vice versa) is completed at creation with
the concrete slot as winner. -/
def autoBye (m : Match) : Match :=
  if m.participant2_id = none ∧ truthyS m.participant1_id then
    { m with winner_id := m.participant1_id, status := "completed" }
  else if m.participant1_id = none ∧ truthyS m.participant2_id then
    { m with winner_id := m.participant2_id, status := "completed" }
  else m

/-- First round of `generate_single_elimination_seeded`: consume the
seeded slot list two at a time (`ordered_participants[i]`,
`ordered_participants[i+1]`), keeping each slot's seed index for the
`seed1`/`seed2` display fields, and apply the auto-bye rule. -/
def buildRound1Seeded (competition_id tournament_id now : String)
    (round_offset n : Nat) : Nat → List (Option String × Nat) → List Match
  | _, [] => []
  | k, (p1, s1) :: (p2, s2) :: rest =>
    autoBye
      { id := k, tournament_id := tournament_id, competition_id := competition_id,
        round_number := 1 + round_offset, match_number := k, group_number := none,
        participant1_id := p1, participant2_id := p2,
        seed1 := if s1 < n then some (s1 + 1) else none,
        seed2 := if s2 < n then some (s2 + 1) else none,
        winner_id := none, resource_id := none, scheduled_time := none,
        status := "pending", scores := [],
        bracket_position := "R" ++ toString (1 + round_offset) ++ "-M" ++ toString k,
        bracket_type := none, next_match_id := none, created_at := now }
      :: buildRound1Seeded competition_id tournament_id now round_offset n (k + 1) rest
  | k, [(p1, s1)] =>
    [autoBye
      { id := k, tournament_id := tournament_id, competition_id := competition_id,
        round_number := 1 + round_offset, match_number := k, group_number := none,
        participant1_id := p1, participant2_id := none,
        seed1 := if s1 < n then some (s1 + 1) else none, seed2 := none,
        winner_id := none, resource_id := none, scheduled_time := none,
        status := "pending", scores := [],
        bracket_position := "R" ++ toString (1 + round_offset) ++ "-M" ++ toString k,
        bracket_type := none, next_match_id := none, created_at := now }]

/-- One iteration of the subsequent-round loop shared by both
single-elimination generators: walk the previous round two matches at a
time, create the next-round match (numbered from `k`), point both
previous matches' `next_match_id` at it and eagerly copy any truthy
previous winner into the corresponding slot.  Returns the updated
previous round and the new round. -/
def nextRoundBuild (competition_id tournament_id now : String)
    (round_number : Nat) : Nat → List Match → List Match × List Match
  | _, [] => ([], [])
  | k, [a] =>
    ([{ a with next_match_id := some k }],
     [{ id := k, tournament_id := tournament_id, competition_id := competition_id,
        round_number := round_number, match_number := k, group_number := none,
        participant1_id := if truthyS a.winner_id then a.winner_id else none,
        participant2_id := none,
        seed1 := none, seed2 := none, winner_id := none, resource_id := none,
        scheduled_time := none, status := "pending", scores := [],
        bracket_position := "R" ++ toString round_number ++ "-M" ++ toString k,
        bracket_type := none, next_match_id := none, created_at := now }])
  | k, a :: b :: rest =>
    let m : Match :=
      { id := k, tournament_id := tournament_id, competition_id := competition_id,
        round_number := round_number, match_number := k, group_number := none,
        participant1_id := if truthyS a.winner_id then a.winner_id else none,
        participant2_id := if truthyS b.winner_id then b.winner_id else none,
        seed1 := none, seed2 := none, winner_id := none, resource_id := none,
        scheduled_time := none, status := "pending", scores := [],
        bracket_position := "R" ++ toString round_number ++ "-M" ++ toString k,
        bracket_type := none, next_match_id := none, created_at := now }
    let rec2 := nextRoundBuild competition_id tournament_id now round_number (k + 1) rest
    ({ a with next_match_id := some k } :: { b with next_match_id := some k } :: rec2.1,
     m :: rec2.2)

/-- The blank next-round match `nextRoundBuild` creates at number `k`,
pre-filling each slot from the corresponding source winner (already
determined for byes, still `None` for pending matches). -/
def nrbBlank (competition_id tournament_id now : String) (round_number k : Nat)
    (wa wb : Option String) : Match :=
  { id := k, tournament_id := tournament_id, competition_id := competition_id,
    round_number := round_number, match_number := k, group_number := none,
    participant1_id := if truthyS wa then wa else none,
    participant2_id := if truthyS wb then wb else none,
    seed1 := none, seed2 := none, winner_id := none, resource_id := none,
    scheduled_time := none, status := "pending", scores := [],
    bracket_position := "R" ++ toString round_number ++ "-M" ++ toString k,
    bracket_type := none, next_match_id := none, created_at := now }

/-- The new round `nextRoundBuild` emits, as a function of the source
round's winner column alone. -/
def nrbFromWinners (competition_id tournament_id now : String)
    (round_number : Nat) : Nat → List (Option String) → List Match
  | _, [] => []
  | k, [w] => [nrbBlank competition_id tournament_id now round_number k w none]
  | k, wa :: wb :: rest =>
    nrbBlank competition_id tournament_id now round_number k wa wb ::
      nrbFromWinners competition_id tournament_id now round_number (k + 1) rest

/-- The `for round_num in range(2, rounds + 1)` loop: `remaining` rounds
still to build, `round_number` of the next round, `counter` the next
match number.  Returns the rounds in creation order (each previous round
already carrying the `next_match_id` links added when its successor was
built), so that their concatenation is the generator's `all_matches`. -/
def elimRoundsAux (competition_id tournament_id now : String) :
    Nat → Nat → Nat → List Match → List (List Match)
  | 0, _, _, cur => [cur]
  | remaining + 1, round_number, counter, cur =>
    let built := nextRoundBuild competition_id tournament_id now round_number counter cur
    built.1 :: elimRoundsAux competition_id tournament_id now remaining
      (round_number + 1) (counter + built.2.length) built.2

/-- `generate_single_elimination_seeded`, structured by round (the flat
result is the concatenation).  The input list is already seed-ordered;
byes (`None`) are appended up to the bracket size and the whole slot list
is permuted by `create_seeded_bracket_order`. -/
def genSeededRounds (participant_ids : List String)
    (competition_id tournament_id now : String) (round_offset : Nat) :
    List (List Match) :=
  let n := participant_ids.length
  let rounds := if 1 < n then ceil_log2 n else 1
  let bracket_size := 2 ^ rounds
  let byes_needed := bracket_size - n
  let padded : List (Option String) :=
    participant_ids.map some ++ List.replicate byes_needed none
  let seeded_order := create_seeded_bracket_order padded.length
  let ordered : List (Option String × Nat) :=
    seeded_order.map (fun i => (padded.getD i none, i))
  let round1 := buildRound1Seeded competition_id tournament_id now round_offset n 1 ordered
  elimRoundsAux competition_id tournament_id now (rounds - 1)
    (2 + round_offset) (round1.length + 1) round1

/-- `generate_single_elimination_seeded` (flat `all_matches` list). -/
def generate_single_elimination_seeded (participant_ids : List String)
    (competition_id tournament_id now : String) (round_offset : Nat) : List Match :=
  (genSeededRounds participant_ids competition_id tournament_id now round_offset).flatten

/-- First round of `generate_single_elimination_matches`: pair the
(already shuffled, bye-padded) slot list sequentially; no seed fields. -/
def buildRound1Plain (competition_id tournament_id now : String)
    (round_offset : Nat) : Nat → List (Option String) → List Match
  | _, [] => []
  | k, p1 :: p2 :: rest =>
    autoBye
      { id := k, tournament_id := tournament_id, competition_id := competition_id,
        round_number := 1 + round_offset, match_number := k, group_number := none,
        participant1_id := p1, participant2_id := p2,
        seed1 := none, seed2 := none, winner_id := none, resource_id := none,
        scheduled_time := none, status := "pending", scores := [],
        bracket_position := "R" ++ toString (1 + round_offset) ++ "-M" ++ toString k,
        bracket_type := none, next_match_id := none, created_at := now }
      :: buildRound1Plain competition_id tournament_id now round_offset (k + 1) rest
  | k, [p1] =>
    [autoBye
      { id := k, tournament_id := tournament_id, competition_id := competition_id,
        round_number := 1 + round_offset, match_number := k, group_number := none,
        participant1_id := p1, participant2_id := none,
        seed1 := none, seed2 := none, winner_id := none, resource_id := none,
        scheduled_time := none, status := "pending", scores := [],
        bracket_position := "R" ++ toString (1 + round_offset) ++ "-M" ++ toString k,
        bracket_type := none, next_match_id := none, created_at := now }]

/-- `generate_single_elimination_matches`, structured by round.  The
`random.shuffle` is modelled by taking the already shuffled participant
list as input. -/
def genPlainRounds (shuffled : List String)
    (competition_id tournament_id now : String) (round_offset : Nat) :
    List (List Match) :=
  let n := shuffled.length
  let rounds := if 1 < n then ceil_log2 n else 1
  let bracket_size := 2 ^ rounds
  let byes_needed := bracket_size - n
  let padded : List (Option String) :=
    shuffled.map some ++ List.replicate byes_needed none
  let round1 := buildRound1Plain competition_id tournament_id now round_offset 1 padded
  elimRoundsAux competition_id tournament_id now (rounds - 1)
    (2 + round_offset) (round1.length + 1) round1

/-- `generate_single_elimination_matches` (flat list). -/
def generate_single_elimination_matches (shuffled : List String)
    (competition_id tournament_id now : String) (round_offset : Nat) : List Match :=
  (genPlainRounds shuffled competition_id tournament_id now round_offset).flatten

/-- Losers-bracket placeholder matches of
`generate_double_elimination_matches`: one match per `r` in
`range(num_losers_rounds)` with `round_number = r + 1`, numbered from
`k`; `count` is how many are left to create. -/
def buildLosersMatches (competition_id tournament_id now : String) :
    Nat → Nat → Nat → List Match
  | _, _, 0 => []
  | k, r, count + 1 =>
    { id := k, tournament_id := tournament_id, competition_id := competition_id,
      round_number := r + 1, match_number := k, group_number := none,
      participant1_id := none, participant2_id := none,
      seed1 := none, seed2 := none, winner_id := none, resource_id := none,
      scheduled_time := none, status := "pending", scores := [],
      bracket_position := "L-R" ++ toString (r + 1) ++ "-M" ++ toString k,
      bracket_type := some "losers", next_match_id := none, created_at := now }
      :: buildLosersMatches competition_id tournament_id now (k + 1) (r + 1) count

/-- Grand-final placeholder of `generate_double_elimination_matches`. -/
def grandFinalMatch (competition_id tournament_id now : String) (k : Nat) : Match :=
  { id := k, tournament_id := tournament_id, competition_id := competition_id,
    round_number := 999, match_number := k, group_number := none,
    participant1_id := none, participant2_id := none,
    seed1 := none, seed2 := none, winner_id := none, resource_id := none,
    scheduled_time := none, status := "pending", scores := [],
    bracket_position := "Grand-Final", bracket_type := some "final",
    next_match_id := none, created_at := now }

/-- `generate_double_elimination_matches`: the winners bracket from
`generate_single_elimination_matches`, then
`max(1, len(participant_ids) // 4)` losers placeholders (numbered after
the winners matches), then one grand final. -/
def generate_double_elimination_matches (shuffled : List String)
    (competition_id tournament_id now : String) : List Match :=
  let winners_matches :=
    generate_single_elimination_matches shuffled competition_id tournament_id now 0
  let num_losers_rounds := max 1 (shuffled.length / 4)
  let losers :=
    buildLosersMatches competition_id tournament_id now
      (winners_matches.length + 1) 0 num_losers_rounds
  winners_matches ++ losers ++
    [grandFinalMatch competition_id tournament_id now
      (winners_matches.length + num_losers_rounds + 1)]

/-- One snake-draft step of `generate_groups_knockout_seeded`: advance
the group index by `direction`, bouncing at both ends. -/
def snakeStep (num_groups : Nat) (idx dir : Int) : Int × Int :=
  let idx2 := idx + dir
  if (num_groups : Int) ≤ idx2 then ((num_groups : Int) - 1, -1)
  else if idx2 < 0 then (0, 1)
  else (idx2, dir)

/-- Snake-draft distribution of the seeded participant list into
`num_groups` groups. -/
def snakeGroupsAux (num_groups : Nat) :
    List String → List (List String) → Int → Int → List (List String)
  | [], gs, _, _ => gs
  | p :: rest, gs, idx, dir =>
    let gs2 := gs.set idx.toNat (gs.getD idx.toNat [] ++ [p])
    let step := snakeStep num_groups idx dir
    snakeGroupsAux num_groups rest gs2 step.1 step.2

def snakeGroups (num_groups : Nat) (participants : List String) : List (List String) :=
  snakeGroupsAux num_groups participants (List.replicate num_groups []) 0 1

/-- Round-robin matches inside one group (`group_num`, matches numbered
from `k`); `bracket_type` is the optional `"group"` tag only the seeded
generator writes. -/
def buildGroupMatches (competition_id tournament_id now : String)
    (bracket_type : Option String) (group_num : Nat) :
    Nat → List (String × String) → List Match
  | _, [] => []
  | k, (p, q) :: rest =>
    { id := k, tournament_id := tournament_id, competition_id := competition_id,
      round_number := 1, match_number := k, group_number := some group_num,
      participant1_id := some p, participant2_id := some q,
      seed1 := none, seed2 := none, winner_id := none, resource_id := none,
      scheduled_time := none, status := "pending", scores := [],
      bracket_position := "G" ++ toString group_num ++ "-M" ++ toString k,
      bracket_type := bracket_type, next_match_id := none, created_at := now }
      :: buildGroupMatches competition_id tournament_id now bracket_type group_num (k + 1) rest

/-- All group-stage matches: fold the groups in order, numbering matches
and groups consecutively. -/
def buildAllGroups (competition_id tournament_id now : String)
    (bracket_type : Option String) : Nat → Nat → List (List String) → List Match
  | _, _, [] => []
  | g, k, grp :: rest =>
    let ms := buildGroupMatches competition_id tournament_id now bracket_type g k (rrPairs grp)
    ms ++ buildAllGroups competition_id tournament_id now bracket_type (g + 1) (k + ms.length) rest

/-- `generate_groups_knockout_seeded`: snake-draft groups, round robin
within each, matches tagged `bracket_type="group"`. -/
def generate_groups_knockout_seeded (participant_ids : List String)
    (competition_id tournament_id : String) (num_groups : Nat) (now : String) :
    List Match :=
  buildAllGroups competition_id tournament_id now (some "group") 1 1
    (snakeGroups num_groups participant_ids)

/-- `generate_groups_knockout_matches`: deal the shuffled list round-robin
(`groups[i % num_groups]`), round robin within each group, no
`bracket_type` key.  `random.shuffle` is modelled by taking the shuffled
list as input. -/
def generate_groups_knockout_matches (shuffled : List String)
    (competition_id tournament_id : String) (num_groups : Nat) (now : String) :
    List Match :=
  let groups := (List.range num_groups).map
    (fun g => ((shuffled.enum.filter (fun pr => pr.1 % num_groups = g)).map (fun pr => pr.2)))
  buildAllGroups competition_id tournament_id now none 1 1 groups

/-! ## Persistence model and progression handlers -/

/-- A competition document, with the fields the engine reads
(`competition.get(...)` defaults are already applied). -/
structure Competition where
  id : String
  participant_ids : List String
  format : String
  num_groups : Nat
  participant_type : String
  status : String
deriving DecidableEq

structure Tournament where
  id : String
  status : String
deriving DecidableEq

structure Resource where
  id : String
  current_match_id : Option Nat
deriving DecidableEq

/-- The document store.  Players and teams appear only through their
win/loss counters, merged into one keyed map (participant ids are unique
across the two collections). -/
structure DB where
  matches_ : List Match
  competitions : List Competition
  tournaments : List Tournament
  resources : List Resource
  statsWins : String → Nat
  statsLosses : String → Nat
  statsPlayed : String → Nat

/-- `update_one({"id": i}, {"$set": ...})` on the matches collection:
rewrite the first document with that id. -/
def updateMatchById (mid : Nat) (f : Match → Match) : List Match → List Match
  | [] => []
  | m :: rest => if m.id = mid then f m :: rest else m :: updateMatchById mid f rest

def updateCompetitionById (cid : String) (f : Competition → Competition) :
    List Competition → List Competition
  | [] => []
  | c :: rest => if c.id = cid then f c :: rest else c :: updateCompetitionById cid f rest

/-- `update_one({"id": i, "status": {"$in": allowed}}, ...)` on tournaments. -/
def updateTournamentIf (tid : String) (allowed : List String) (f : Tournament → Tournament) :
    List Tournament → List Tournament
  | [] => []
  | t :: rest =>
    if t.id = tid ∧ t.status ∈ allowed then f t :: rest
    else t :: updateTournamentIf tid allowed f rest

def updateResourceById (rid : String) (f : Resource → Resource) :
    List Resource → List Resource
  | [] => []
  | r :: rest => if r.id = rid then f r :: rest else r :: updateResourceById rid f rest

/-- An `HTTPException` (status code and detail string). -/
structure HErr where
  code : Nat
  detail : String
deriving DecidableEq

/-- The `MatchUpdate` Pydantic model (all fields optional). -/
structure MatchUpdate where
  status : Option String := none
  scores : Option (List SetScore) := none
  winner_id : Option String := none
  resource_id : Option String := none
  scheduled_time : Option String := none
deriving DecidableEq

/-- Application of the assembled `update_data` dict to a match document:
each key present in the dict overwrites the field; a truthy `winner_id`
also forces `status = "completed"` (the dict entry written after any
caller-supplied status). -/
def applyUpdateData (statusF : Option String) (scoresF : Option (List SetScore))
    (resF schedF winF : Option String) (x : Match) : Match :=
  let x1 := match statusF with | some s => { x with status := s } | none => x
  let x2 := match scoresF with | some l => { x1 with scores := l } | none => x1
  let x3 := match resF with | some r => { x2 with resource_id := some r } | none => x2
  let x4 := match schedF with | some t => { x3 with scheduled_time := some t } | none => x3
  match winF with
  | some w => { x4 with winner_id := some w, status := "completed" }
  | none => x4

/-- The winner-advancement step of `update_match`: if the completed match
has a `next_match_id`, fill the next match's first `null` slot (slot 1
checked before slot 2); if both slots are taken, do nothing — silently. -/
def advanceWinnerIntoNext (winner : Option String) (next : Option Nat) (db : DB) : DB :=
  match next with
  | some nid =>
    match db.matches_.find? (fun x => x.id = nid) with
    | some nm =>
      if nm.participant1_id = none then
        { db with matches_ := (updateMatchById nid
            (fun x => { x with participant1_id := winner }) db.matches_) }
      else if nm.participant2_id = none then
        { db with matches_ := (updateMatchById nid
            (fun x => { x with participant2_id := winner }) db.matches_) }
      else db
    | none => db
  | none => db

/-- `$inc` of the winner's aggregate stats. -/
def bumpWinnerStats (winner : Option String) (db : DB) : DB :=
  match winner with
  | some w => { db with
      statsWins := fun s => if s = w then db.statsWins s + 1 else db.statsWins s
      statsPlayed := fun s => if s = w then db.statsPlayed s + 1 else db.statsPlayed s }
  | none => db

/-- `$inc` of the loser's aggregate stats (only for a truthy loser id). -/
def bumpLoserStats (loser : Option String) (db : DB) : DB :=
  match loser with
  | some l =>
    if truthyS loser then
      { db with
        statsLosses := fun s => if s = l then db.statsLosses s + 1 else db.statsLosses s
        statsPlayed := fun s => if s = l then db.statsPlayed s + 1 else db.statsPlayed s }
    else db
  | none => db

/-- Free the match's resource on completion. -/
def clearResourceOf (rid : Option String) (db : DB) : DB :=
  match rid with
  | some r =>
    if truthyS rid then
      { db with resources := (updateResourceById r
          (fun x => { x with current_match_id := none }) db.resources) }
    else db
  | none => db

/-- `PUT /tournaments/{tid}/matches/{match_id}` (`update_match`), after
its auth guards.  Note what it does **not** do: no check that the match
is not already completed, no winner validation, and no error when both
slots of the next match are already filled. -/
def update_match (db : DB) (match_id : Nat) (upd : MatchUpdate) : Except HErr DB :=
  match db.matches_.find? (fun m => m.id = match_id) with
  | none => .error ⟨404, "Match not found"⟩
  | some m =>
    let statusF := if truthyS upd.status then upd.status else none
    let scoresF := if truthyScores upd.scores then upd.scores else none
    let resF := if truthyS upd.resource_id then upd.resource_id else none
    let schedF := if truthyS upd.scheduled_time then upd.scheduled_time else none
    if truthyS upd.winner_id then
      let db4 :=
        clearResourceOf m.resource_id
          (bumpLoserStats
            (if upd.winner_id = m.participant2_id then m.participant1_id
             else m.participant2_id)
            (bumpWinnerStats upd.winner_id
              (advanceWinnerIntoNext upd.winner_id m.next_match_id db)))
      .ok { db4 with matches_ := (updateMatchById match_id
        (applyUpdateData statusF scoresF resF schedF upd.winner_id) db4.matches_) }
    else
      .ok { db with matches_ := (updateMatchById match_id
        (applyUpdateData statusF scoresF resF schedF none) db.matches_) }

/-- `POST .../matches/{match_id}/complete` (`complete_match`): requires a
live match, counts the sets won per side and hands over to
`update_match`.  On a set-count tie the winner is `participant2_id`. -/
def complete_match (db : DB) (match_id : Nat) (scores : List SetScore) : Except HErr DB :=
  match db.matches_.find? (fun m => m.id = match_id) with
  | none => .error ⟨404, "Match not found"⟩
  | some m =>
    if m.status ≠ "live" then .error ⟨400, "Match must be live to complete"⟩
    else
      let p1_sets := (scores.filter (fun s => s.score2 < s.score1)).length
      let p2_sets := (scores.filter (fun s => s.score1 < s.score2)).length
      let winner_id := if p2_sets < p1_sets then m.participant1_id else m.participant2_id
      update_match db match_id { scores := some scores, winner_id := winner_id }

/-- `POST .../matches/{match_id}/start` (`start_match`): needs an
assigned resource and a `pending`/`scheduled` status; sets the match
live and marks competition and (if still early) tournament in progress. -/
def start_match (db : DB) (tournament_id : String) (match_id : Nat) : Except HErr DB :=
  match db.matches_.find? (fun m => m.id = match_id) with
  | none => .error ⟨404, "Match not found"⟩
  | some m =>
    if ¬ truthyS m.resource_id then
      .error ⟨400, "Match must be assigned to a resource first"⟩
    else if m.status ∉ ["pending", "scheduled"] then
      .error ⟨400, "Match cannot be started"⟩
    else
      .ok { db with
        matches_ := updateMatchById match_id (fun x => { x with status := "live" }) db.matches_,
        competitions := updateCompetitionById m.competition_id
          (fun c => { c with status := "in_progress" }) db.competitions,
        tournaments := updateTournamentIf tournament_id ["draft", "draw_generated"]
          (fun t => { t with status := "in_progress" }) db.tournaments }

/-- `POST .../competitions/{cid}/advance-winner` (`advance_winner`):
validates the winner is one of the slots, completes the match, and fills
the next match's first empty slot.  No completed-status check either. -/
def advance_winner (db : DB) (competition_id : String) (match_id : Nat)
    (winner_id : String) : Except HErr (Option Nat × DB) :=
  match db.matches_.find? (fun m => m.id = match_id ∧ m.competition_id = competition_id) with
  | none => .error ⟨404, "Match not found"⟩
  | some m =>
    if ¬ (m.participant1_id = some winner_id ∨ m.participant2_id = some winner_id) then
      .error ⟨400, "Winner must be one of the match participants"⟩
    else
      let db1 := { db with matches_ := (updateMatchById match_id
        (fun x => { x with winner_id := some winner_id, status := "completed" }) db.matches_) }
      let db2 :=
        match m.next_match_id with
        | some nid =>
          match db1.matches_.find? (fun x => x.id = nid) with
          | some nm =>
            if nm.participant1_id = none then
              { db1 with matches_ := (updateMatchById nid
                  (fun x => { x with participant1_id := some winner_id }) db1.matches_) }
            else if nm.participant2_id = none then
              { db1 with matches_ := (updateMatchById nid
                  (fun x => { x with participant2_id := some winner_id }) db1.matches_) }
            else db1
          | none => db1
        | none => db1
      .ok (m.next_match_id, db2)

/-- Dispatch on `competition.format`, shared by both draw-generation
endpoints (`ordered` is the participant order handed to the generators;
the unseeded single-elimination / groups generators and the
double-elimination winners bracket shuffle internally, modelled by the
`shuffle` argument). -/
def dispatchFormat (seeded : Bool) (comp : Competition) (ordered : List String)
    (shuffle : List String → List String)
    (competition_id tournament_id now : String) : List Match :=
  if comp.format = "round_robin" then
    generate_round_robin_matches ordered competition_id tournament_id now
  else if comp.format = "single_elimination" then
    if seeded then
      generate_single_elimination_seeded ordered competition_id tournament_id now 0
    else
      generate_single_elimination_matches (shuffle ordered) competition_id tournament_id now 0
  else if comp.format = "double_elimination" then
    generate_double_elimination_matches (shuffle ordered) competition_id tournament_id now
  else if comp.format = "groups_knockout" then
    if seeded then
      generate_groups_knockout_seeded ordered competition_id tournament_id comp.num_groups now
    else
      generate_groups_knockout_matches (shuffle ordered) competition_id tournament_id comp.num_groups now
  else []

/-- `POST .../generate-draw` (`generate_draw`): 404 on a missing
competition, 400 with fewer than two participants — both **before** the
existing matches are deleted; then delete, regenerate per format, insert
and bump statuses.  Returns the match count. -/
def generate_draw (db : DB) (tournament_id competition_id : String)
    (shuffle : List String → List String) (now : String) : Except HErr Nat × DB :=
  match db.competitions.find? (fun c => c.id = competition_id) with
  | none => (.error ⟨404, "Competition not found"⟩, db)
  | some comp =>
    if comp.participant_ids.length < 2 then
      (.error ⟨400, "Need at least 2 participants"⟩, db)
    else
      let db1 := { db with matches_ := (db.matches_.filter
        (fun m => m.competition_id ≠ competition_id)) }
      let ms := dispatchFormat false comp comp.participant_ids shuffle
        competition_id tournament_id now
      (.ok ms.length,
        { db1 with
          matches_ := db1.matches_ ++ ms,
          competitions := updateCompetitionById competition_id
            (fun c => { c with status := "draw_generated" }) db1.competitions,
          tournaments := updateTournamentIf tournament_id ["draft"]
            (fun t => { t with status := "draw_generated" }) db1.tournaments })

/-- The `DrawOptions` Pydantic model. -/
structure DrawOptions where
  seeding : String := "random"
  seed_order : Option (List String) := none
deriving DecidableEq

/-- Python truthiness of the optional seed-order list. -/
def truthyStrList : Option (List String) → Bool
  | none => false
  | some l => !l.isEmpty

/-- `set(a) = set(b)` on id lists. -/
def sameSet (a b : List String) : Bool :=
  a.all (fun x => b.contains x) && b.all (fun x => a.contains x)

/-- Stable insertion by ascending `Int` key (earlier elements stay first
on equal keys), modelling Python's stable `sorted`. -/
def insertByIntKey {α : Type} (key : α → Int) (x : α) : List α → List α
  | [] => [x]
  | y :: ys => if key x ≤ key y then x :: y :: ys else y :: insertByIntKey key x ys

def stableSortByIntKey {α : Type} (key : α → Int) : List α → List α
  | [] => []
  | x :: xs => insertByIntKey key x (stableSortByIntKey key xs)

/-- `POST .../generate-draw-advanced` (`generate_draw_advanced`): after
the same competition/participant checks, delete the existing matches,
seed the order (`manual` with a truthy list must match the participant
set; `rating` is a stable descending sort by the rating map, modelled as
a stable ascending sort by negated rating; anything else shuffles) and
generate per format with the seeded generators. -/
def generate_draw_advanced (db : DB) (tournament_id competition_id : String)
    (options : DrawOptions) (ratings : String → Int)
    (shuffle : List String → List String) (now : String) : Except HErr Nat × DB :=
  match db.competitions.find? (fun c => c.id = competition_id) with
  | none => (.error ⟨404, "Competition not found"⟩, db)
  | some comp =>
    if comp.participant_ids.length < 2 then
      (.error ⟨400, "Need at least 2 participants"⟩, db)
    else
      -- the delete has already happened when the seed-order check runs
      let db1 := { db with matches_ := (db.matches_.filter
        (fun m => m.competition_id ≠ competition_id)) }
      let orderedE : Except HErr (List String) :=
        if options.seeding = "manual" ∧ truthyStrList options.seed_order then
          if ¬ sameSet (options.seed_order.getD []) comp.participant_ids then
            .error ⟨400, "Seed order must include all participants"⟩
          else .ok (options.seed_order.getD [])
        else if options.seeding = "rating" then
          .ok (stableSortByIntKey (fun x => -(ratings x)) comp.participant_ids)
        else .ok (shuffle comp.participant_ids)
      match orderedE with
      | .error e => (.error e, db1)
      | .ok ordered =>
        let ms := dispatchFormat true comp ordered shuffle competition_id tournament_id now
        (.ok ms.length,
          { db1 with
            matches_ := db1.matches_ ++ ms,
            competitions := updateCompetitionById competition_id
              (fun c => { c with status := "draw_generated" }) db1.competitions })

/-! ## Standings -/

/-- A standings row (`rank` is the key only `get_standings` adds at the
end). -/
structure StandingsEntry where
  participant_id : String
  group_number : Option Nat
  played : Nat
  wins : Nat
  losses : Nat
  sets_for : Nat
  sets_against : Nat
  points_for : Int
  points_against : Int
  rank : Option Nat
deriving DecidableEq

/-- `standings[pid] = {...}` on first sight of a truthy participant id
(Python dicts keep insertion order, so new rows go to the back). -/
def ensureEntry (l : List StandingsEntry) (pid : Option String) (g : Option Nat) :
    List StandingsEntry :=
  match pid with
  | none => l
  | some p =>
    if ¬ truthyS pid then l
    else if l.any (fun e => e.participant_id = p) then l
    else l ++ [{ participant_id := p, group_number := g, played := 0, wins := 0,
                 losses := 0, sets_for := 0, sets_against := 0, points_for := 0,
                 points_against := 0, rank := none }]

def updEntry (p : String) (f : StandingsEntry → StandingsEntry) :
    List StandingsEntry → List StandingsEntry :=
  List.map (fun e => if e.participant_id = p then f e else e)

/-- Accumulate one set score into both rows. -/
def foldScorePair (p1 p2 : String) (s : SetScore) (l : List StandingsEntry) :
    List StandingsEntry :=
  let l1 := updEntry p1 (fun e => { e with points_for := e.points_for + s.score1,
                                           points_against := e.points_against + s.score2 }) l
  let l2 := updEntry p2 (fun e => { e with points_for := e.points_for + s.score2,
                                           points_against := e.points_against + s.score1 }) l1
  if s.score2 < s.score1 then
    updEntry p2 (fun e => { e with sets_against := e.sets_against + 1 })
      (updEntry p1 (fun e => { e with sets_for := e.sets_for + 1 }) l2)
  else if s.score1 < s.score2 then
    updEntry p1 (fun e => { e with sets_against := e.sets_against + 1 })
      (updEntry p2 (fun e => { e with sets_for := e.sets_for + 1 }) l2)
  else l2

/-- Fold one completed match into the standings rows, exactly as the
`for match in matches` body of `calculate_standings`. -/
def foldMatch (l : List StandingsEntry) (m : Match) : List StandingsEntry :=
  let l1 := ensureEntry l m.participant1_id m.group_number
  let l2 := ensureEntry l1 m.participant2_id m.group_number
  match m.participant1_id, m.participant2_id with
  | some p1, some p2 =>
    if p1 ≠ "" ∧ p2 ≠ "" then
      let l3 := updEntry p2 (fun e => { e with played := e.played + 1 })
        (updEntry p1 (fun e => { e with played := e.played + 1 }) l2)
      let l4 :=
        if m.winner_id = some p1 then
          updEntry p2 (fun e => { e with losses := e.losses + 1 })
            (updEntry p1 (fun e => { e with wins := e.wins + 1 }) l3)
        else if m.winner_id = some p2 then
          updEntry p1 (fun e => { e with losses := e.losses + 1 })
            (updEntry p2 (fun e => { e with wins := e.wins + 1 }) l3)
        else l3
      m.scores.foldl (fun acc s => foldScorePair p1 p2 s acc) l4
    else l2
  | _, _ => l2

/-- `calculate_standings(competition_id, ...)`: fold the competition's
completed matches in collection order. -/
def calculate_standings (db : DB) (competition_id : String) : List StandingsEntry :=
  ((db.matches_.filter (fun m => m.competition_id = competition_id ∧
      m.status = "completed")).foldl foldMatch [])

/-- The sort key of `get_standings`:
`(-wins, -(points_for - points_against))`. -/
def standingsKey (e : StandingsEntry) : Int × Int :=
  (-(e.wins : Int), -(e.points_for - e.points_against))

/-- Lexicographic order on the key. -/
def keyLe (a b : Int × Int) : Prop :=
  a.1 < b.1 ∨ (a.1 = b.1 ∧ a.2 ≤ b.2)

instance : DecidablePred (fun p : (Int × Int) × (Int × Int) => keyLe p.1 p.2) :=
  fun p => by unfold keyLe; infer_instance

instance keyLeDec (a b : Int × Int) : Decidable (keyLe a b) := by
  unfold keyLe; infer_instance

/-- Stable insertion sort by the standings key, modelling Python's
stable `list.sort`. -/
def insertEntry (x : StandingsEntry) : List StandingsEntry → List StandingsEntry
  | [] => [x]
  | y :: ys =>
    if keyLe (standingsKey x) (standingsKey y) then x :: y :: ys
    else y :: insertEntry x ys

def sortStandings : List StandingsEntry → List StandingsEntry
  | [] => []
  | x :: xs => insertEntry x (sortStandings xs)

/-- The `for i, entry in enumerate(standings): entry["rank"] = i + 1`
loop. -/
def assignRanks : Nat → List StandingsEntry → List StandingsEntry
  | _, [] => []
  | k, e :: rest => { e with rank := some k } :: assignRanks (k + 1) rest

/-- `GET .../standings` (`get_standings`): compute, sort by
`(-wins, -(points_for - points_against))`, add 1-based ranks.  The
participant-name enrichment (a display join against the players/teams
collections) is omitted; it touches no field the sort or ranks read. -/
def get_standings (db : DB) (competition_id : String) :
    Except HErr (List StandingsEntry) :=
  match db.competitions.find? (fun c => c.id = competition_id) with
  | none => .error ⟨404, "Competition not found"⟩
  | some _ =>
    .ok (assignRanks 1 (sortStandings (calculate_standings db competition_id)))

/-! ## Full-play model

A fresh elimination draw is exercised by repeated result recording.  The
model below plays rounds in order (the fixpoint of the real process): a
**playable** match — `pending` with both slots concrete — is completed
with an arbitrary winner chosen by `choice` from its two slots, and its
winner is advanced into the `next_match_id` match's first empty slot,
exactly as `update_match` does; byes were already completed and advanced
at creation and are not re-propagated.  "Once every playable match has
been played" is the state after the sweep. -/

def playable (m : Match) : Bool :=
  m.status = "pending" && m.participant1_id.isSome && m.participant2_id.isSome

/-- Complete a playable match; `choice` picks the winning slot. -/
def playMatch (choice : Nat → Bool) (m : Match) : Match :=
  { m with status := "completed",
           winner_id := if choice m.id then m.participant1_id else m.participant2_id }

/-- `update_match`'s first-empty-slot fill. -/
def fillFirstNull (w : Option String) (x : Match) : Match :=
  if x.participant1_id = none then { x with participant1_id := w }
  else if x.participant2_id = none then { x with participant2_id := w }
  else x

/-- Advance a completed match's winner into its `next_match_id` match. -/
def propagateInto (src : Match) (l : List Match) : List Match :=
  match src.next_match_id with
  | some nid =>
    if src.winner_id.isSome then updateMatchById nid (fillFirstNull src.winner_id) l else l
  | none => l

/-- Play every playable match of one round. -/
def playRound (choice : Nat → Bool) (r : List Match) : List Match :=
  r.map (fun m => if playable m then playMatch choice m else m)

/-- Advance the winners of the playable matches of `r` into the next
round. -/
def propagateRound (choice : Nat → Bool) (r next : List Match) : List Match :=
  r.foldl (fun acc m => if playable m then propagateInto (playMatch choice m) acc else acc) next

def playRoundsCarry (choice : Nat → Bool) : List Match → List (List Match) → List (List Match)
  | cur, [] => [playRound choice cur]
  | cur, next :: rest =>
    playRound choice cur :: playRoundsCarry choice (propagateRound choice cur next) rest

/-- Play a round-structured draw to completion, in round order. -/
def playRounds (choice : Nat → Bool) : List (List Match) → List (List Match)
  | [] => []
  | r :: rest => playRoundsCarry choice r rest

/-- Matches holding a determined winner. -/
def decidedCount (rs : List (List Match)) : Nat :=
  (rs.flatten.filter (fun m => m.winner_id.isSome)).length

/-- Matches decided by actual play: a winner and both slots concrete. -/
def contestedCount (rs : List (List Match)) : Nat :=
  (rs.flatten.filter
    (fun m => m.winner_id.isSome && m.participant1_id.isSome && m.participant2_id.isSome)).length

/-- A bye match: exactly one concrete slot. -/
def isByeMatch (m : Match) : Bool :=
  m.participant1_id.isSome ^^ m.participant2_id.isSome

/-- Winner-decided matches within one round. -/
def decidedIn (l : List Match) : Nat :=
  (l.filter (fun m => m.winner_id.isSome)).length

/-- Play-decided matches within one round: a winner and both slots. -/
def contestedIn (l : List Match) : Nat :=
  (l.filter (fun m =>
    m.winner_id.isSome && m.participant1_id.isSome && m.participant2_id.isSome)).length

/-- Playable matches within one round. -/
def liveCount (l : List Match) : Nat := (l.filter playable).length

/-- The shape every match of a healthy elimination round has: either
still to be played with both slots concrete, or a bye completed at
creation (non-empty winner, a missing slot). -/
def okMatch (m : Match) : Prop :=
  (m.status = "pending" ∧ m.winner_id = none ∧
     m.participant1_id.isSome ∧ m.participant2_id.isSome) ∨
  (m.status = "completed" ∧ (∃ w, m.winner_id = some w ∧ w ≠ "") ∧
     (m.participant1_id = none ∨ m.participant2_id = none))

/-- The shape of the seeded slot list feeding round one: even length, a
concrete non-empty participant in every first slot of a pair, and a
concrete non-empty participant or a bye in every second slot. -/
def r1Good : List (Option String × Nat) → Prop
  | [] => True
  | (p1, _) :: (p2, _) :: rest =>
    (∃ s, p1 = some s ∧ s ≠ "") ∧
    (p2 = none ∨ ∃ s, p2 = some s ∧ s ≠ "") ∧ r1Good rest
  | [_] => False

/-! ## Concrete fixtures for counterexamples and witnesses -/

/-- A default match document for building concrete states. -/
def baseMatch (i : Nat) : Match :=
  { id := i, tournament_id := "t", competition_id := "c", round_number := 1,
    match_number := i, group_number := none, participant1_id := none,
    participant2_id := none, seed1 := none, seed2 := none, winner_id := none,
    resource_id := none, scheduled_time := none, status := "pending",
    scores := [], bracket_position := "", bracket_type := none,
    next_match_id := none, created_at := "" }

/-- A document store holding the given matches and competitions. -/
def mkDB (ms : List Match) (cs : List Competition) : DB :=
  { matches_ := ms, competitions := cs, tournaments := [], resources := [],
    statsWins := fun _ => 0, statsLosses := fun _ => 0, statsPlayed := fun _ => 0 }

def baseComp : Competition :=
  { id := "c", participant_ids := [], format := "round_robin", num_groups := 1,
    participant_type := "single", status := "draft" }

/-- A completed match `a` vs `b`, already won by `a`. -/
def dbCompleted : DB :=
  mkDB [{ baseMatch 1 with
          status := "completed"
          participant1_id := some "a"
          participant2_id := some "b"
          winner_id := some "a" }] []

/-- Match 1 feeds match 2, whose two slots are both already filled. -/
def dbNextFull : DB :=
  mkDB [{ baseMatch 1 with
          participant1_id := some "a"
          participant2_id := some "b"
          next_match_id := some 2 },
        { baseMatch 2 with
          participant1_id := some "x"
          participant2_id := some "y" }] []

/-- Match 1 feeds match 2, whose slot 2 is filled but slot 1 is empty. -/
def dbNextOpen : DB :=
  mkDB [{ baseMatch 1 with
          participant1_id := some "a"
          participant2_id := some "b"
          next_match_id := some 2 },
        { baseMatch 2 with
          participant2_id := some "x" }] []

/-- Two completed round-robin matches: `b` beat `c` and `a` beat `d`,
both 1–0 — so `a` and `b` tie on every sort key, as do `c` and `d`. -/
def dbTiedStandings : DB :=
  mkDB [{ baseMatch 1 with
          status := "completed"
          participant1_id := some "b"
          participant2_id := some "c"
          winner_id := some "b"
          scores := [⟨1, 1, 0⟩] },
        { baseMatch 2 with
          status := "completed"
          participant1_id := some "a"
          participant2_id := some "d"
          winner_id := some "a"
          scores := [⟨1, 1, 0⟩] }] [baseComp]

/-- A live match `a` vs `b`. -/
def dbLive : DB :=
  mkDB [{ baseMatch 1 with
          status := "live"
          participant1_id := some "a"
          participant2_id := some "b" }] []

/-- A pending match with a resource assigned. -/
def dbPendingResourced : DB :=
  mkDB [{ baseMatch 1 with
          participant1_id := some "a"
          participant2_id := some "b"
          resource_id := some "r" }] []

/-- Winner and status of the match with the given id. -/
def matchStateAt (mid : Nat) (d : DB) : Option (Option String × String) :=
  (d.matches_.find? (fun x => x.id = mid)).map (fun y => (y.winner_id, y.status))

/-- Both participant slots of the match with the given id. -/
def slotsAt (mid : Nat) (d : DB) : Option (Option String × Option String) :=
  (d.matches_.find? (fun x => x.id = mid)).map
    (fun y => (y.participant1_id, y.participant2_id))

/-- Status of the match with the given id. -/
def statusAt (mid : Nat) (d : DB) : Option String :=
  (d.matches_.find? (fun x => x.id = mid)).map (fun y => y.status)

/-! # Theorems -/

/-! ## The two fuelled helpers compute what the Python computes -/

/-- The fuel argument of `csoAux` is irrelevant once it dominates `size`. -/
theorem csoAux_fuel_irrel : ∀ f1 f2 size, size ≤ f1 → size ≤ f2 →
    csoAux f1 size = csoAux f2 size := by
  intro f1
  induction f1 with
  | zero =>
    intro f2 size h1 _
    interval_cases size
    cases f2 <;> simp [csoAux]
  | succ f ih =>
    intro f2 size h1 h2
    match f2 with
    | 0 =>
      interval_cases size
      simp [csoAux]
    | g + 1 =>
      by_cases hs : size ≤ 1
      · simp [csoAux, hs]
      · by_cases hs2 : size = 2
        · simp [csoAux, hs, hs2]
        · have hlt : size / 2 ≤ f := by omega
          have hlt2 : size / 2 ≤ g := by omega
          simp only [csoAux, if_neg hs, if_neg hs2]
          rw [ih g (size / 2) hlt hlt2]

/-- Unfolding rule of `create_seeded_bracket_order` for `size ≥ 3`. -/
theorem create_seeded_bracket_order_eq (size : Nat) (h : 3 ≤ size) :
    create_seeded_bracket_order size =
      interleave (create_seeded_bracket_order (size / 2))
        ((create_seeded_bracket_order (size / 2)).map (fun i => size - 1 - i)) := by
  obtain ⟨f, rfl⟩ : ∃ f, size = f + 1 := ⟨size - 1, by omega⟩
  show csoAux (f + 1) (f + 1) = _
  rw [csoAux]
  rw [if_neg (by omega), if_neg (by omega)]
  simp only []
  rw [csoAux_fuel_irrel f ((f + 1) / 2) ((f + 1) / 2) (by omega) (by omega)]
  rfl

/-- `ceil_log2` agrees with Mathlib's ceiling log. -/
theorem clog2Aux_eq_clog : ∀ fuel n, n ≤ fuel → clog2Aux fuel n = Nat.clog 2 n := by
  intro fuel
  induction fuel with
  | zero =>
    intro n h
    interval_cases n
    simp [clog2Aux]
  | succ f ih =>
    intro n h
    by_cases hn : n ≤ 1
    · rw [clog2Aux, if_pos hn, Nat.clog_of_right_le_one hn]
    · rw [clog2Aux, if_neg hn,
        Nat.clog_of_two_le (by omega) (by omega), ih ((n + 1) / 2) (by omega)]
      norm_num

theorem ceil_log2_eq_clog (n : Nat) : ceil_log2 n = Nat.clog 2 n :=
  clog2Aux_eq_clog n n le_rfl

/-! ## Generic collection lemmas -/

/-- Updating the searched-for id rewrites the found document. -/
theorem find?_updateMatchById_self (f : Match → Match) (mid : Nat)
    (hf : ∀ x, (f x).id = x.id) :
    ∀ l : List Match,
      (updateMatchById mid f l).find? (fun x => x.id = mid) =
        (l.find? (fun x => x.id = mid)).map f := by
  intro l
  induction l with
  | nil => simp [updateMatchById]
  | cons m rest ih =>
    by_cases hm : m.id = mid
    · simp [updateMatchById, hm, List.find?_cons, hf]
    · simp only [updateMatchById, if_neg hm]
      rw [List.find?_cons_of_neg _ (by simp [hm]), List.find?_cons_of_neg _ (by simp [hm]), ih]

/-- Updating a different id leaves the found document unchanged. -/
theorem find?_updateMatchById_other (f : Match → Match) (nid mid : Nat)
    (hne : nid ≠ mid) (hf : ∀ x, (f x).id = x.id) :
    ∀ l : List Match,
      (updateMatchById nid f l).find? (fun x => x.id = mid) =
        l.find? (fun x => x.id = mid) := by
  intro l
  induction l with
  | nil => simp [updateMatchById]
  | cons m rest ih =>
    by_cases hm : m.id = nid
    · have : ¬ (f m).id = mid := by rw [hf]; omega
      rw [updateMatchById, if_pos hm, List.find?_cons_of_neg _ (by simpa using this),
        List.find?_cons_of_neg _ (by simp; omega)]
    · rw [updateMatchById, if_neg hm]
      by_cases hm2 : m.id = mid
      · rw [List.find?_cons_of_pos _ (by simpa using hm2),
          List.find?_cons_of_pos _ (by simpa using hm2)]
      · rw [List.find?_cons_of_neg _ (by simpa using hm2),
          List.find?_cons_of_neg _ (by simpa using hm2), ih]

/-! ## C2 — seeded pairing order -/

/-- C2: the seeded pairing order satisfies the recursive halving rule —
size 1 gives `[0]`, size 2 gives `[0, 1]`, and for the (power-of-two)
bracket sizes the order is the top-half order interleaved with its
mirror `B[i] = size - 1 - T[i]` — and for size 8 the resulting
first-round pairs, read in bracket order with 1-based seeds, are
(1,8),(4,5),(2,7),(3,6). -/
theorem claim_C2_seeded_pairing_order :
    create_seeded_bracket_order 1 = [0] ∧
    create_seeded_bracket_order 2 = [0, 1] ∧
    (∀ k : Nat, create_seeded_bracket_order (2 ^ (k + 2)) =
      interleave (create_seeded_bracket_order (2 ^ (k + 1)))
        ((create_seeded_bracket_order (2 ^ (k + 1))).map
          (fun i => 2 ^ (k + 2) - 1 - i))) ∧
    create_seeded_bracket_order 8 = [0, 7, 3, 4, 1, 6, 2, 5] ∧
    (create_seeded_bracket_order 8).map (fun i => i + 1) = [1, 8, 4, 5, 2, 7, 3, 6] := by
  refine ⟨by decide, by decide, ?_, by decide, by decide⟩
  intro k
  have h4 : (3 : Nat) ≤ 2 ^ (k + 2) := by
    calc (3 : Nat) ≤ 2 ^ 2 := by norm_num
    _ ≤ 2 ^ (k + 2) := Nat.pow_le_pow_right (by norm_num) (by omega)
  have hhalf : 2 ^ (k + 2) / 2 = 2 ^ (k + 1) := by
    rw [pow_succ]
    exact Nat.mul_div_cancel _ (by norm_num)
  rw [create_seeded_bracket_order_eq _ h4, hhalf]

/-- `applyUpdateData` never changes the document id. -/
theorem applyUpdateData_id (sF : Option String) (scF : Option (List SetScore))
    (rF schF wF : Option String) (x : Match) :
    (applyUpdateData sF scF rF schF wF x).id = x.id := by
  unfold applyUpdateData
  cases sF <;> cases scF <;> cases rF <;> cases schF <;> cases wF <;> rfl

/-- With a winner present, `applyUpdateData` forces the winner and the
`completed` status whatever the document held. -/
theorem applyUpdateData_winner (sF : Option String) (scF : Option (List SetScore))
    (rF schF : Option String) (w : String) (x : Match) :
    (applyUpdateData sF scF rF schF (some w) x).winner_id = some w ∧
    (applyUpdateData sF scF rF schF (some w) x).status = "completed" := by
  unfold applyUpdateData
  cases sF <;> cases scF <;> cases rF <;> cases schF <;> exact ⟨rfl, rfl⟩

/-- Id-preserving updates keep the searched-for document present. -/
theorem find?_isSome_updateMatchById (nid : Nat) (f : Match → Match)
    (hf : ∀ x, (f x).id = x.id) (l : List Match) (mid : Nat)
    (h : (l.find? (fun x => x.id = mid)).isSome) :
    ((updateMatchById nid f l).find? (fun x => x.id = mid)).isSome := by
  by_cases hn : nid = mid
  · subst hn
    rw [find?_updateMatchById_self f nid hf]
    simpa using h
  · rw [find?_updateMatchById_other f nid mid hn hf]
    exact h

theorem bumpWinnerStats_matches (w : Option String) (db : DB) :
    (bumpWinnerStats w db).matches_ = db.matches_ := by
  cases w <;> rfl

theorem bumpLoserStats_matches (l : Option String) (db : DB) :
    (bumpLoserStats l db).matches_ = db.matches_ := by
  cases l with
  | none => rfl
  | some x => by_cases h : truthyS (some x) = true <;> simp [bumpLoserStats, h]

theorem clearResourceOf_matches (r : Option String) (db : DB) :
    (clearResourceOf r db).matches_ = db.matches_ := by
  cases r with
  | none => rfl
  | some x => by_cases h : truthyS (some x) = true <;> simp [clearResourceOf, h]

/-- Winner advancement keeps every id-searched document present. -/
theorem advanceWinnerIntoNext_find_isSome (w : Option String) (next : Option Nat)
    (db : DB) (mid : Nat)
    (h : (db.matches_.find? (fun x => x.id = mid)).isSome) :
    ((advanceWinnerIntoNext w next db).matches_.find? (fun x => x.id = mid)).isSome := by
  cases next with
  | none => exact h
  | some nid =>
    cases hfind : db.matches_.find? (fun x => x.id = nid) with
    | none => simpa only [advanceWinnerIntoNext, hfind] using h
    | some nm =>
      by_cases h1 : nm.participant1_id = none
      · simp only [advanceWinnerIntoNext, hfind, if_pos h1]
        exact find?_isSome_updateMatchById nid
          (fun x => { x with participant1_id := w }) (fun x => rfl) _ _ h
      · by_cases h2 : nm.participant2_id = none
        · simp only [advanceWinnerIntoNext, hfind, if_neg h1, if_pos h2]
          exact find?_isSome_updateMatchById nid
            (fun x => { x with participant2_id := w }) (fun x => rfl) _ _ h
        · simp only [advanceWinnerIntoNext, hfind, if_neg h1, if_neg h2]
          exact h

/-- After the final `$set` of `update_match`'s winner branch, the updated
match holds the new winner and the `completed` status. -/
theorem find?_after_winner_set (sF : Option String) (scF : Option (List SetScore))
    (rF schF : Option String) (w : String) (mid : Nat) (L : List Match)
    (h : (L.find? (fun x => x.id = mid)).isSome) :
    ((updateMatchById mid (applyUpdateData sF scF rF schF (some w)) L).find?
        (fun x => x.id = mid)).map (fun y => (y.winner_id, y.status)) =
      some (some w, "completed") := by
  rw [find?_updateMatchById_self _ mid (fun x => applyUpdateData_id sF scF rF schF _ x)]
  obtain ⟨y, hy⟩ := Option.isSome_iff_exists.mp h
  rw [hy]
  simp [applyUpdateData_winner sF scF rF schF w y]

/-- `update_match` with a truthy winner never fails and leaves the match
completed with that winner — regardless of the match's previous status. -/
theorem update_match_winner_state (db : DB) (mid : Nat) (upd : MatchUpdate)
    (m : Match) (w : String)
    (hfind : db.matches_.find? (fun x => x.id = mid) = some m)
    (hw : upd.winner_id = some w) (hwne : w ≠ "") :
    (update_match db mid upd).toOption.map (matchStateAt mid) =
    some (some (some w, "completed")) := by
  have htr : truthyS upd.winner_id = true := by
    rw [hw]; simpa [truthyS] using hwne
  have hsome : (db.matches_.find? (fun x => x.id = mid)).isSome := by
    rw [hfind]; rfl
  have hsome4 : ((clearResourceOf m.resource_id
      (bumpLoserStats
        (if upd.winner_id = m.participant2_id then m.participant1_id
         else m.participant2_id)
        (bumpWinnerStats upd.winner_id
          (advanceWinnerIntoNext upd.winner_id m.next_match_id db)))).matches_.find?
      (fun x => x.id = mid)).isSome := by
    rw [clearResourceOf_matches, bumpLoserStats_matches, bumpWinnerStats_matches]
    exact advanceWinnerIntoNext_find_isSome _ _ _ _ hsome
  simp only [update_match, hfind, htr, if_true]
  rw [hw] at hsome4 ⊢
  simp only [Except.toOption, Option.map_some', matchStateAt]
  exact congrArg some (find?_after_winner_set _ _ _ _ _ _ _ hsome4)

/-! ## C4 — scoreline ties are not rejected -/

/-- C4 counterexample: a live match between `a` and `b` completed with
the drawn scoreline 5–5 (no side with strictly more units) is **not**
rejected: the call succeeds and awards the win to participant 2. -/
theorem claim_C4_counterexample :
    (complete_match
        (mkDB [{ baseMatch 1 with
                  status := "live"
                  participant1_id := some "a"
                  participant2_id := some "b" }] [])
        1 [⟨1, 5, 5⟩]).toOption.map
      (fun d => d.matches_.map (fun m => (m.winner_id, m.status))) =
    some [(some "b", "completed")] := by decide

/-- C4 amended: on a scoreline whose unit counts tie, `complete_match`
does not fail with `IndeterminateResult`; it succeeds and records
`participant2_id` as the winner (participant 1 wins only with strictly
more units). -/
theorem claim_C4_amended (db : DB) (mid : Nat) (m : Match) (w2 : String)
    (scores : List SetScore)
    (hfind : db.matches_.find? (fun x => x.id = mid) = some m)
    (hlive : m.status = "live")
    (hp2 : m.participant2_id = some w2) (hw2 : w2 ≠ "")
    (htie : (scores.filter (fun s => s.score2 < s.score1)).length =
            (scores.filter (fun s => s.score1 < s.score2)).length) :
    (complete_match db mid scores).toOption.map (matchStateAt mid) =
    some (some (some w2, "completed")) := by
  have hnl : ¬ m.status ≠ "live" := by simp [hlive]
  simp only [complete_match, hfind, if_neg hnl, htie, lt_irrefl, if_neg (lt_irrefl _)]
  exact update_match_winner_state db mid _ m w2 hfind (by simpa using hp2) hw2

/-- C4 witness: the amended statement at the concrete live match and the
drawn scoreline. -/
theorem claim_C4_witness :
    (complete_match dbLive 1 [⟨1, 5, 5⟩]).toOption.map (matchStateAt 1) =
    some (some (some "b", "completed")) :=
  claim_C4_amended dbLive 1
    { baseMatch 1 with
      status := "live"
      participant1_id := some "a"
      participant2_id := some "b" }
    "b" [⟨1, 5, 5⟩] (by decide) rfl rfl (by decide) (by decide)

/-! ## C1 — completion is not append-only -/

/-- C1 counterexample: recording a result on an already-completed match
(winner `a`) with a different winner `b` does **not** fail with
`AlreadyCompleted`: it succeeds and overwrites `winner_id` with `b`. -/
theorem claim_C1_counterexample :
    (update_match dbCompleted 1 { winner_id := some "b" }).toOption.map
      (fun d => d.matches_.map (fun m => (m.winner_id, m.status))) =
    some [(some "b", "completed")] := by decide

/-- C1 amended: on an already-completed match, a second result recording
through `update_match` succeeds and overwrites `winnerId` — completion is
not append-only; only `complete_match` rejects the second call, with a
400 "Match must be live to complete" error (not `AlreadyCompleted`). -/
theorem claim_C1_amended (db : DB) (mid : Nat) (m : Match) (w2 : String)
    (scores : List SetScore)
    (hfind : db.matches_.find? (fun x => x.id = mid) = some m)
    (hc : m.status = "completed") (hw : w2 ≠ "") :
    (update_match db mid { winner_id := some w2 }).toOption.map (matchStateAt mid) =
      some (some (some w2, "completed")) ∧
    complete_match db mid scores = .error ⟨400, "Match must be live to complete"⟩ := by
  constructor
  · exact update_match_winner_state db mid _ m w2 hfind rfl hw
  · have hnl : m.status ≠ "live" := by rw [hc]; decide
    simp only [complete_match, hfind, if_pos hnl]

/-- C1 witness: the amended statement at the concrete completed match. -/
theorem claim_C1_witness :
    (update_match dbCompleted 1 { winner_id := some "b" }).toOption.map (matchStateAt 1) =
      some (some (some "b", "completed")) ∧
    complete_match dbCompleted 1 [⟨1, 2, 0⟩] =
      .error ⟨400, "Match must be live to complete"⟩ :=
  claim_C1_amended dbCompleted 1
    { baseMatch 1 with
      status := "completed"
      participant1_id := some "a"
      participant2_id := some "b"
      winner_id := some "a" }
    "b" [⟨1, 2, 0⟩] (by decide) rfl (by decide)

/-! ## C5 — both-slots-full next match drops the winner silently -/

/-- C5 counterexample: completing match 1 whose next match already has
both slots filled does not raise `InconsistentProgression`; the call
succeeds and match 2's slots are unchanged (the winner is dropped). -/
theorem claim_C5_counterexample :
    (update_match dbNextFull 1 { winner_id := some "a" }).toOption.map
      (fun d => d.matches_.map (fun m => (m.id, m.participant1_id, m.participant2_id))) =
    some [(1, some "a", some "b"), (2, some "x", some "y")] := by decide

/-- The slot outcome of the winner-advancement step: slot 1 first, else
slot 2, else nothing. -/
theorem advanceWinnerIntoNext_slots (w : String) (nid : Nat) (db : DB) (nm : Match)
    (hnm : db.matches_.find? (fun x => x.id = nid) = some nm) :
    ((advanceWinnerIntoNext (some w) (some nid) db).matches_.find?
        (fun x => x.id = nid)).map (fun y => (y.participant1_id, y.participant2_id)) =
    some (if nm.participant1_id = none then (some w, nm.participant2_id)
          else if nm.participant2_id = none then (nm.participant1_id, some w)
          else (nm.participant1_id, nm.participant2_id)) := by
  by_cases h1 : nm.participant1_id = none
  · simp only [advanceWinnerIntoNext, hnm, if_pos h1]
    rw [find?_updateMatchById_self
      (fun x => { x with participant1_id := some w }) nid (fun x => rfl), hnm]
    simp [h1]
  · by_cases h2 : nm.participant2_id = none
    · simp only [advanceWinnerIntoNext, hnm, if_neg h1, if_pos h2]
      rw [find?_updateMatchById_self
        (fun x => { x with participant2_id := some w }) nid (fun x => rfl), hnm]
      simp [h1, h2]
    · simp only [advanceWinnerIntoNext, hnm, if_neg h1, if_neg h2, hnm]
      simp [h1, h2]

/-- C5 amended: when a match with a `nextMatchId` is completed, the
winner goes into the next match's first `null` slot, slot 1 checked
before slot 2; when both slots are already non-null the call still
succeeds and the next match is left unchanged — the winner is silently
dropped, no `InconsistentProgression` is reported. -/
theorem claim_C5_amended (db : DB) (mid nid : Nat) (m nm : Match) (w : String)
    (hfind : db.matches_.find? (fun x => x.id = mid) = some m)
    (hnext : m.next_match_id = some nid)
    (hne : nid ≠ mid)
    (hnm : db.matches_.find? (fun x => x.id = nid) = some nm)
    (hw : w ≠ "") :
    (update_match db mid { winner_id := some w }).toOption.map (slotsAt nid) =
    some (some
      (if nm.participant1_id = none then (some w, nm.participant2_id)
       else if nm.participant2_id = none then (nm.participant1_id, some w)
       else (nm.participant1_id, nm.participant2_id))) := by
  have htr : truthyS (some w) = true := by simpa [truthyS] using hw
  simp only [update_match, hfind, htr, if_true, ite_self]
  simp only [Except.toOption, Option.map_some', slotsAt]
  refine congrArg some ?_
  rw [find?_updateMatchById_other (applyUpdateData none none none none (some w))
    mid nid (fun h => hne h.symm) (fun x => applyUpdateData_id _ _ _ _ _ x)]
  rw [clearResourceOf_matches, bumpLoserStats_matches, bumpWinnerStats_matches, hnext]
  exact advanceWinnerIntoNext_slots w nid db nm hnm

/-- C5 witness: the amended statement at a next match with an open
slot 2 — the winner lands in slot 1. -/
theorem claim_C5_witness :
    (update_match dbNextOpen 1 { winner_id := some "a" }).toOption.map (slotsAt 2) =
    some (some
      (if (none : Option String) = none then (some "a", some "x")
       else if (some "x" : Option String) = none then ((none : Option String), some "a")
       else ((none : Option String), some "x"))) :=
  claim_C5_amended dbNextOpen 1 2
    { baseMatch 1 with
      participant1_id := some "a"
      participant2_id := some "b"
      next_match_id := some 2 }
    { baseMatch 2 with participant2_id := some "x" }
    "a" (by decide) rfl (by decide) (by decide) (by decide)

/-! ## C6 — status moves are not confined to the forward lifecycle -/

/-- C6 counterexample: `update_match` happily moves a `completed` match
back to `pending`: completed is not terminal and transitions are not
forward-only. -/
theorem claim_C6_counterexample :
    (update_match dbCompleted 1 { status := some "pending" }).toOption.map
      (fun d => d.matches_.map (fun m => m.status)) = some ["pending"] := by decide

/-- C6 amended: the only transition the engine enforces is
`start_match`'s — it fails without a resource, fails unless the status is
`pending` or `scheduled`, and otherwise sets `live`; `update_match`
applies any caller-supplied status unconditionally, so no forward-only
lifecycle holds. -/
theorem claim_C6_amended (db : DB) (tid : String) (mid : Nat) (m : Match) (s : String)
    (hfind : db.matches_.find? (fun x => x.id = mid) = some m)
    (hs : s ≠ "") :
    (¬ truthyS m.resource_id = true →
      start_match db tid mid = .error ⟨400, "Match must be assigned to a resource first"⟩) ∧
    (truthyS m.resource_id = true → m.status ∉ ["pending", "scheduled"] →
      start_match db tid mid = .error ⟨400, "Match cannot be started"⟩) ∧
    (truthyS m.resource_id = true → m.status ∈ ["pending", "scheduled"] →
      (start_match db tid mid).toOption.map (statusAt mid) = some (some "live")) ∧
    ((update_match db mid { status := some s }).toOption.map (statusAt mid) =
      some (some s)) := by
  refine ⟨?_, ?_, ?_, ?_⟩
  · intro hr
    simp only [start_match, hfind, if_pos hr]
  · intro hr hst
    simp only [start_match, hfind, if_neg (not_not_intro hr), if_pos hst]
  · intro hr hst
    simp only [start_match, hfind, if_neg (not_not_intro hr), if_neg (not_not_intro hst)]
    simp only [Except.toOption, Option.map_some', statusAt]
    rw [find?_updateMatchById_self
      (fun x => { x with status := "live" }) mid (fun x => rfl), hfind]
    simp
  · have hts : truthyS (some s) = true := by simpa [truthyS] using hs
    have htw : truthyS (none : Option String) = false := rfl
    simp only [update_match, hfind, MatchUpdate.winner_id, htw, Bool.false_eq_true,
      if_false, MatchUpdate.status, hts, if_true, ite_self]
    simp only [Except.toOption, Option.map_some', statusAt]
    rw [find?_updateMatchById_self (applyUpdateData (some s) none none none none)
      mid (fun x => applyUpdateData_id _ _ _ _ _ x), hfind]
    simp [applyUpdateData]

/-- C6 witness: the amended statement at a pending, resourced match. -/
theorem claim_C6_witness :
    (¬ truthyS (some "r") = true →
      start_match dbPendingResourced "t" 1 =
        .error ⟨400, "Match must be assigned to a resource first"⟩) ∧
    (truthyS (some "r") = true → "pending" ∉ ["pending", "scheduled"] →
      start_match dbPendingResourced "t" 1 = .error ⟨400, "Match cannot be started"⟩) ∧
    (truthyS (some "r") = true → "pending" ∈ ["pending", "scheduled"] →
      (start_match dbPendingResourced "t" 1).toOption.map (statusAt 1) =
      some (some "live")) ∧
    ((update_match dbPendingResourced 1 { status := some "cancelled" }).toOption.map
      (statusAt 1) = some (some "cancelled")) :=
  claim_C6_amended dbPendingResourced "t" 1
    { baseMatch 1 with
      participant1_id := some "a"
      participant2_id := some "b"
      resource_id := some "r" }
    "cancelled" (by decide) (by decide)

/-! ## C8 — manual seeding validates only set equality, and only when a
non-empty order is supplied -/

/-- C8 counterexample: a `manual` draw request with **no** seed order
does not fail with `InvalidSeedOrder`: it succeeds (silently falling back
to random seeding). -/
theorem claim_C8_counterexample :
    (generate_draw_advanced
        (mkDB [] [{ baseComp with participant_ids := ["a", "b"] }])
        "t" "c" { seeding := "manual", seed_order := none }
        (fun _ => 0) id "now").1.toOption = some 1 := by decide

/-- C8 amended: with `seeding = manual`, a truthy (non-empty) seed order
fails iff its **set** differs from the participant set (duplicates with
the right set are accepted), and an absent or empty seed order silently
falls back to random seeding instead of failing. -/
theorem claim_C8_amended (db : DB) (tid cid : String) (comp : Competition)
    (ratings : String → Int) (shuffle : List String → List String) (now : String)
    (options : DrawOptions)
    (hfind : db.competitions.find? (fun c => c.id = cid) = some comp)
    (hn : 2 ≤ comp.participant_ids.length)
    (hman : options.seeding = "manual") :
    (truthyStrList options.seed_order = true →
      sameSet (options.seed_order.getD []) comp.participant_ids = false →
      (generate_draw_advanced db tid cid options ratings shuffle now).1 =
        .error ⟨400, "Seed order must include all participants"⟩) ∧
    (truthyStrList options.seed_order = true →
      sameSet (options.seed_order.getD []) comp.participant_ids = true →
      (generate_draw_advanced db tid cid options ratings shuffle now).1.isOk = true) ∧
    (truthyStrList options.seed_order = false →
      generate_draw_advanced db tid cid options ratings shuffle now =
        generate_draw_advanced db tid cid { seeding := "random", seed_order := none }
          ratings shuffle now) := by
  have hn2 : ¬ comp.participant_ids.length < 2 := by omega
  refine ⟨?_, ?_, ?_⟩
  · intro hT hS
    simp only [generate_draw_advanced, hfind, if_neg hn2,
      if_pos (show options.seeding = "manual" ∧ truthyStrList options.seed_order from
        ⟨hman, hT⟩),
      if_pos (show ¬ (sameSet (options.seed_order.getD []) comp.participant_ids = true) by
        simp [hS])]
  · intro hT hS
    simp only [generate_draw_advanced, hfind, if_neg hn2,
      if_pos (show options.seeding = "manual" ∧ truthyStrList options.seed_order from
        ⟨hman, hT⟩),
      if_neg (show ¬ ¬ (sameSet (options.seed_order.getD []) comp.participant_ids = true)
        from not_not_intro hS)]
    rfl
  · intro hT
    have hcond : ¬ (options.seeding = "manual" ∧ truthyStrList options.seed_order) := by
      intro h
      rw [hT] at h
      exact absurd h.2 (by simp)
    have hrat : options.seeding ≠ "rating" := by rw [hman]; decide
    simp only [generate_draw_advanced, hfind, if_neg hn2, if_neg hcond, if_neg hrat]
    rfl

/-- C8 witness: the amended statement at a two-participant competition
and the manual order `["a"]` (wrong set). -/
theorem claim_C8_witness :
    (truthyStrList (some ["a"]) = true →
      sameSet ((some ["a"] : Option (List String)).getD []) ["a", "b"] = false →
      (generate_draw_advanced (mkDB [] [{ baseComp with participant_ids := ["a", "b"] }])
          "t" "c" { seeding := "manual", seed_order := some ["a"] }
          (fun _ => 0) id "now").1 =
        .error ⟨400, "Seed order must include all participants"⟩) ∧
    (truthyStrList (some ["a"]) = true →
      sameSet ((some ["a"] : Option (List String)).getD []) ["a", "b"] = true →
      (generate_draw_advanced (mkDB [] [{ baseComp with participant_ids := ["a", "b"] }])
          "t" "c" { seeding := "manual", seed_order := some ["a"] }
          (fun _ => 0) id "now").1.isOk = true) ∧
    (truthyStrList (some ["a"]) = false →
      generate_draw_advanced (mkDB [] [{ baseComp with participant_ids := ["a", "b"] }])
          "t" "c" { seeding := "manual", seed_order := some ["a"] }
          (fun _ => 0) id "now" =
        generate_draw_advanced (mkDB [] [{ baseComp with participant_ids := ["a", "b"] }])
          "t" "c" { seeding := "random", seed_order := none }
          (fun _ => 0) id "now") :=
  claim_C8_amended (mkDB [] [{ baseComp with participant_ids := ["a", "b"] }])
    "t" "c" { baseComp with participant_ids := ["a", "b"] }
    (fun _ => 0) id "now" { seeding := "manual", seed_order := some ["a"] }
    (by decide) (by decide) rfl

/-! ## C10 — insufficient participants is checked before the old draw is
discarded -/

/-- C10: on a competition with fewer than two participants, both draw
endpoints fail with the insufficient-participants error and return the
store **unchanged** — the participant check runs before the old matches
are deleted. -/
theorem claim_C10_insufficient_participants_leaves_matches (db : DB)
    (tid cid : String) (comp : Competition)
    (shuffle : List String → List String) (now : String)
    (hfind : db.competitions.find? (fun c => c.id = cid) = some comp)
    (hlt : comp.participant_ids.length < 2) :
    generate_draw db tid cid shuffle now =
      (.error ⟨400, "Need at least 2 participants"⟩, db) ∧
    (∀ options ratings,
      generate_draw_advanced db tid cid options ratings shuffle now =
        (.error ⟨400, "Need at least 2 participants"⟩, db)) := by
  constructor
  · simp only [generate_draw, hfind, if_pos hlt]
  · intro options ratings
    simp only [generate_draw_advanced, hfind, if_pos hlt]

/-- C10 witness: the statement at a one-participant competition holding
one previously generated match. -/
theorem claim_C10_witness :
    generate_draw (mkDB [baseMatch 1] [{ baseComp with participant_ids := ["a"] }])
        "t" "c" id "now" =
      (.error ⟨400, "Need at least 2 participants"⟩,
       mkDB [baseMatch 1] [{ baseComp with participant_ids := ["a"] }]) ∧
    (∀ options ratings,
      generate_draw_advanced (mkDB [baseMatch 1] [{ baseComp with participant_ids := ["a"] }])
          "t" "c" options ratings id "now" =
        (.error ⟨400, "Need at least 2 participants"⟩,
         mkDB [baseMatch 1] [{ baseComp with participant_ids := ["a"] }])) :=
  claim_C10_insufficient_participants_leaves_matches
    (mkDB [baseMatch 1] [{ baseComp with participant_ids := ["a"] }])
    "t" "c" { baseComp with participant_ids := ["a"] } id "now" (by decide) (by decide)

/-! ## C9 — double elimination: losers skeleton sized from `n // 4` -/

/-- Auto-bye resolution never touches `bracket_type`. -/
theorem autoBye_bracket_type (m : Match) : (autoBye m).bracket_type = m.bracket_type := by
  unfold autoBye
  split
  · rfl
  · split <;> rfl

/-- Every first-round match of the unseeded builder carries no
`bracket_type` key. -/
theorem buildRound1Plain_bt (cid tid now : String) (off : Nat) :
    ∀ (l : List (Option String)) (k : Nat) (m : Match),
      m ∈ buildRound1Plain cid tid now off k l → m.bracket_type = none
  | [], _, m, h => by simp [buildRound1Plain] at h
  | [p1], _, m, h => by
    simp only [buildRound1Plain, List.mem_singleton] at h
    subst h
    rw [autoBye_bracket_type]
  | p1 :: p2 :: rest, k, m, h => by
    simp only [buildRound1Plain, List.mem_cons] at h
    rcases h with h | h
    · subst h; rw [autoBye_bracket_type]
    · exact buildRound1Plain_bt cid tid now off rest (k + 1) m h

/-- The subsequent-round builder keeps `bracket_type` absent. -/
theorem nextRoundBuild_bt (cid tid now : String) (r : Nat) :
    ∀ (cur : List Match) (k : Nat),
      (∀ m ∈ cur, m.bracket_type = none) →
      (∀ m ∈ (nextRoundBuild cid tid now r k cur).1, m.bracket_type = none) ∧
      (∀ m ∈ (nextRoundBuild cid tid now r k cur).2, m.bracket_type = none)
  | [], k, hc => by simp [nextRoundBuild]
  | [a], k, hc => by
    constructor <;> intro m h
    · simp only [nextRoundBuild, List.mem_singleton] at h
      subst h
      exact hc a (by simp)
    · simp only [nextRoundBuild, List.mem_singleton] at h
      subst h
      rfl
  | a :: b :: rest, k, hc => by
    have ih := nextRoundBuild_bt cid tid now r rest (k + 1)
      (fun m hm => hc m (by simp [hm]))
    constructor <;> intro m h
    · simp only [nextRoundBuild, List.mem_cons] at h
      rcases h with h | h | h
      · subst h; exact hc a (by simp)
      · subst h; exact hc b (by simp)
      · exact ih.1 m h
    · simp only [nextRoundBuild, List.mem_cons] at h
      rcases h with h | h
      · subst h; rfl
      · exact ih.2 m h

/-- All rounds built by the elimination loop keep `bracket_type` absent. -/
theorem elimRoundsAux_bt (cid tid now : String) :
    ∀ (remaining r k : Nat) (cur : List Match),
      (∀ m ∈ cur, m.bracket_type = none) →
      ∀ m ∈ (elimRoundsAux cid tid now remaining r k cur).flatten,
        m.bracket_type = none
  | 0, r, k, cur, hc => by
    intro m h
    simp only [elimRoundsAux, List.flatten_cons, List.flatten_nil, List.append_nil] at h
    exact hc m h
  | remaining + 1, r, k, cur, hc => by
    intro m h
    simp only [elimRoundsAux, List.flatten_cons, List.mem_append] at h
    have hb := nextRoundBuild_bt cid tid now r cur k hc
    rcases h with h | h
    · exact hb.1 m h
    · exact elimRoundsAux_bt cid tid now remaining (r + 1) _ _ hb.2 m h

/-- Every match of the unseeded single-elimination generator has no
`bracket_type` key. -/
theorem generate_single_elimination_matches_bt (shuffled : List String)
    (cid tid now : String) (off : Nat) :
    ∀ m ∈ generate_single_elimination_matches shuffled cid tid now off,
      m.bracket_type = none := by
  intro m h
  simp only [generate_single_elimination_matches, genPlainRounds] at h
  exact elimRoundsAux_bt cid tid now _ _ _ _
    (buildRound1Plain_bt cid tid now off _ 1) m h

theorem buildLosersMatches_length (cid tid now : String) :
    ∀ k r count, (buildLosersMatches cid tid now k r count).length = count
  | _, _, 0 => rfl
  | k, r, c + 1 => by
    simp [buildLosersMatches, buildLosersMatches_length cid tid now (k + 1) (r + 1) c]

theorem buildLosersMatches_bt (cid tid now : String) :
    ∀ k r count m, m ∈ buildLosersMatches cid tid now k r count →
      m.bracket_type = some "losers"
  | _, _, 0, m, h => by simp [buildLosersMatches] at h
  | k, r, c + 1, m, h => by
    simp only [buildLosersMatches, List.mem_cons] at h
    rcases h with h | h
    · subst h; rfl
    · exact buildLosersMatches_bt cid tid now (k + 1) (r + 1) c m h

/-- C9 counterexample: for 5 participants the winners bracket has 4
first-round matches, so the claimed skeleton size is
`max(1, 4/2) = 2` — but the generator creates exactly 1 losers match
(`max(1, 5//4)`). -/
theorem claim_C9_counterexample :
    ((generate_double_elimination_matches ["a", "b", "c", "d", "e"] "c" "t" "n").filter
      (fun m => m.bracket_type = some "losers")).length = 1 ∧
    ((generate_single_elimination_matches ["a", "b", "c", "d", "e"] "c" "t" "n" 0).filter
      (fun m => m.round_number = 1)).length = 4 ∧
    max 1 (4 / 2) = 2 := by decide

/-- C9 amended: the double-elimination draw is the unseeded
single-elimination winners bracket (all matches without a bracket tag),
plus `max(1, n // 4)` losers placeholders — `n` the participant count,
which equals `max(1, firstRoundMatchCount/2)` only when `n` is a power of
two — plus exactly one grand final. -/
theorem claim_C9_amended (shuffled : List String) (cid tid now : String)
    (hn : 2 ≤ shuffled.length) :
    ((generate_double_elimination_matches shuffled cid tid now).filter
        (fun m => m.bracket_type = some "losers")).length =
      max 1 (shuffled.length / 4) ∧
    ((generate_double_elimination_matches shuffled cid tid now).filter
        (fun m => m.bracket_type = some "final")).length = 1 ∧
    (generate_double_elimination_matches shuffled cid tid now).filter
        (fun m => m.bracket_type = none) =
      generate_single_elimination_matches shuffled cid tid now 0 := by
  have hgd : generate_double_elimination_matches shuffled cid tid now =
      generate_single_elimination_matches shuffled cid tid now 0 ++
      buildLosersMatches cid tid now
        ((generate_single_elimination_matches shuffled cid tid now 0).length + 1) 0
        (max 1 (shuffled.length / 4)) ++
      [grandFinalMatch cid tid now
        ((generate_single_elimination_matches shuffled cid tid now 0).length +
          max 1 (shuffled.length / 4) + 1)] := rfl
  have hW := generate_single_elimination_matches_bt shuffled cid tid now 0
  have hL := buildLosersMatches_bt cid tid now
    ((generate_single_elimination_matches shuffled cid tid now 0).length + 1) 0
    (max 1 (shuffled.length / 4))
  refine ⟨?_, ?_, ?_⟩
  · rw [hgd, List.filter_append, List.filter_append]
    have h1 : (generate_single_elimination_matches shuffled cid tid now 0).filter
        (fun m => m.bracket_type = some "losers") = [] := by
      rw [List.filter_eq_nil_iff]
      intro a ha
      simp [hW a ha]
    have h2 : (buildLosersMatches cid tid now
        ((generate_single_elimination_matches shuffled cid tid now 0).length + 1) 0
        (max 1 (shuffled.length / 4))).filter
        (fun m => m.bracket_type = some "losers") =
        buildLosersMatches cid tid now
          ((generate_single_elimination_matches shuffled cid tid now 0).length + 1) 0
          (max 1 (shuffled.length / 4)) := by
      rw [List.filter_eq_self]
      intro a ha
      simp [hL a ha]
    rw [h1, h2]
    simp [buildLosersMatches_length, grandFinalMatch]
  · rw [hgd, List.filter_append, List.filter_append]
    have h1 : (generate_single_elimination_matches shuffled cid tid now 0).filter
        (fun m => m.bracket_type = some "final") = [] := by
      rw [List.filter_eq_nil_iff]
      intro a ha
      simp [hW a ha]
    have h2 : (buildLosersMatches cid tid now
        ((generate_single_elimination_matches shuffled cid tid now 0).length + 1) 0
        (max 1 (shuffled.length / 4))).filter
        (fun m => m.bracket_type = some "final") = [] := by
      rw [List.filter_eq_nil_iff]
      intro a ha
      simp [hL a ha]
    rw [h1, h2]
    simp [grandFinalMatch]
  · rw [hgd, List.filter_append, List.filter_append]
    have h1 : (generate_single_elimination_matches shuffled cid tid now 0).filter
        (fun m => m.bracket_type = none) =
        generate_single_elimination_matches shuffled cid tid now 0 := by
      rw [List.filter_eq_self]
      intro a ha
      simp [hW a ha]
    have h2 : (buildLosersMatches cid tid now
        ((generate_single_elimination_matches shuffled cid tid now 0).length + 1) 0
        (max 1 (shuffled.length / 4))).filter
        (fun m => m.bracket_type = none) = [] := by
      rw [List.filter_eq_nil_iff]
      intro a ha
      simp [hL a ha]
    rw [h1, h2]
    simp [grandFinalMatch]

/-- C9 witness: the amended statement for the concrete 5-participant
draw. -/
theorem claim_C9_witness :
    ((generate_double_elimination_matches ["a", "b", "c", "d", "e"] "c" "t" "n").filter
        (fun m => m.bracket_type = some "losers")).length =
      max 1 (["a", "b", "c", "d", "e"].length / 4) ∧
    ((generate_double_elimination_matches ["a", "b", "c", "d", "e"] "c" "t" "n").filter
        (fun m => m.bracket_type = some "final")).length = 1 ∧
    (generate_double_elimination_matches ["a", "b", "c", "d", "e"] "c" "t" "n").filter
        (fun m => m.bracket_type = none) =
      generate_single_elimination_matches ["a", "b", "c", "d", "e"] "c" "t" "n" 0 :=
  claim_C9_amended ["a", "b", "c", "d", "e"] "c" "t" "n" (by decide)

/-! ## C7 — standings sort keys, ranks, and tie order -/

theorem keyLe_refl (a : Int × Int) : keyLe a a := by
  unfold keyLe; omega

theorem keyLe_total (a b : Int × Int) : keyLe a b ∨ keyLe b a := by
  unfold keyLe; omega

theorem keyLe_trans (a b c : Int × Int) (h1 : keyLe a b) (h2 : keyLe b c) : keyLe a c := by
  unfold keyLe at *; omega

theorem mem_insertEntry (x z : StandingsEntry) :
    ∀ l, z ∈ insertEntry x l ↔ z = x ∨ z ∈ l
  | [] => by simp [insertEntry]
  | y :: ys => by
    unfold insertEntry
    split
    · simp
    · rw [List.mem_cons, List.mem_cons, mem_insertEntry x z ys]
      tauto

/-- Inserting into a key-sorted list keeps it key-sorted. -/
theorem insertEntry_pairwise (x : StandingsEntry) :
    ∀ l, List.Pairwise (fun a b => keyLe (standingsKey a) (standingsKey b)) l →
      List.Pairwise (fun a b => keyLe (standingsKey a) (standingsKey b)) (insertEntry x l)
  | [], _ => by simp [insertEntry]
  | y :: ys, h => by
    rcases List.pairwise_cons.mp h with ⟨hy, hys⟩
    unfold insertEntry
    split
    case isTrue hxy =>
      refine List.pairwise_cons.mpr ⟨?_, h⟩
      intro z hz
      rcases List.mem_cons.mp hz with rfl | hz
      · exact hxy
      · exact keyLe_trans _ _ _ hxy (hy z hz)
    case isFalse hxy =>
      refine List.pairwise_cons.mpr ⟨?_, insertEntry_pairwise x ys hys⟩
      intro z hz
      rcases (mem_insertEntry x z ys).mp hz with rfl | hz
      · rcases keyLe_total (standingsKey z) (standingsKey y) with h | h
        · exact absurd h hxy
        · exact h
      · exact hy z hz

theorem sortStandings_pairwise :
    ∀ l, List.Pairwise (fun a b => keyLe (standingsKey a) (standingsKey b))
      (sortStandings l)
  | [] => by simp [sortStandings]
  | x :: xs => insertEntry_pairwise x (sortStandings xs) (sortStandings_pairwise xs)

/-- Rank assignment only touches `rank`; keys are untouched. -/
theorem mem_assignRanks (z : StandingsEntry) :
    ∀ (k : Nat) (l : List StandingsEntry), z ∈ assignRanks k l →
      ∃ f ∈ l, ∃ j, z = { f with rank := some j }
  | k, [], h => by simp [assignRanks] at h
  | k, e :: rest, h => by
    rcases List.mem_cons.mp h with rfl | h
    · exact ⟨e, by simp, k, rfl⟩
    · obtain ⟨f, hf, j, rfl⟩ := mem_assignRanks z (k + 1) rest h
      exact ⟨f, by simp [hf], j, rfl⟩

theorem assignRanks_pairwise :
    ∀ (k : Nat) (l : List StandingsEntry),
      List.Pairwise (fun a b => keyLe (standingsKey a) (standingsKey b)) l →
      List.Pairwise (fun a b => keyLe (standingsKey a) (standingsKey b)) (assignRanks k l)
  | k, [], _ => by simp [assignRanks]
  | k, e :: rest, h => by
    rcases List.pairwise_cons.mp h with ⟨he, hrest⟩
    refine List.pairwise_cons.mpr ⟨?_, assignRanks_pairwise (k + 1) rest hrest⟩
    intro z hz
    obtain ⟨f, hf, j, rfl⟩ := mem_assignRanks z (k + 1) rest hz
    exact he f hf

theorem assignRanks_map_rank :
    ∀ (k : Nat) (l : List StandingsEntry),
      (assignRanks k l).map (fun e => e.rank) = (List.range' k l.length).map some
  | k, [] => rfl
  | k, e :: rest => by
    simp only [assignRanks, List.map_cons, List.length_cons, List.range'_succ]
    rw [assignRanks_map_rank (k + 1) rest]

/-- Stability of the insertion: inserting `x` never moves it past an
entry with the same key. -/
theorem filter_insertEntry (x : StandingsEntry) (k : Int × Int) :
    ∀ l, (insertEntry x l).filter (fun e => standingsKey e = k) =
      if standingsKey x = k then x :: l.filter (fun e => standingsKey e = k)
      else l.filter (fun e => standingsKey e = k)
  | [] => by
    by_cases hk : standingsKey x = k <;> simp [insertEntry, List.filter, hk]
  | y :: ys => by
    unfold insertEntry
    split
    case isTrue hxy =>
      by_cases hk : standingsKey x = k <;> simp [List.filter_cons, hk]
    case isFalse hxy =>
      by_cases hk : standingsKey x = k
      · have hyk : ¬ standingsKey y = k := by
          intro hy
          exact hxy (hk ▸ hy ▸ keyLe_refl _)
        simp only [List.filter_cons, filter_insertEntry x k ys, hk, if_pos hk,
          decide_eq_true_eq]
        rw [if_neg hyk, if_neg hyk]
      · by_cases hyk : standingsKey y = k <;>
          simp [List.filter_cons, filter_insertEntry x k ys, hk, hyk]

/-- Tied entries come out of the sort in their original (first-seen)
order: the filter at any key is unchanged by sorting. -/
theorem sortStandings_filter (k : Int × Int) :
    ∀ l, (sortStandings l).filter (fun e => standingsKey e = k) =
      l.filter (fun e => standingsKey e = k)
  | [] => rfl
  | x :: xs => by
    rw [sortStandings, filter_insertEntry x k (sortStandings xs),
      sortStandings_filter k xs]
    by_cases hk : standingsKey x = k <;> simp [List.filter_cons, hk]

/-- C7 counterexample: in the fixture both `a` and `b` have 1 win and
+1 point difference — equal on both sort keys — yet the standings list
them as `b` before `a`: ties are resolved by first appearance in the
match list (dict insertion order), not by the participant-id secondary
key the claim requires. -/
theorem claim_C7_counterexample :
    (get_standings dbTiedStandings "c").toOption.map
      (fun l => l.map (fun e =>
        (e.participant_id, e.wins, e.points_for - e.points_against, e.rank))) =
    some [("b", 1, 1, some 1), ("a", 1, 1, some 2),
          ("c", 0, -1, some 3), ("d", 0, -1, some 4)] := by decide

/-- C7 amended: `get_standings` sorts the folded rows by
`(-wins, -(pointsFor - pointsAgainst))` (weakly, `Pairwise keyLe`),
assigns 1-based ranks in order, and — the sort being stable — entries
tied on both keys keep their first-appearance order from the match list;
no participant-id tie-break is applied. -/
theorem claim_C7_amended (db : DB) (cid : String) (comp : Competition)
    (k : Int × Int)
    (hfind : db.competitions.find? (fun c => c.id = cid) = some comp) :
    get_standings db cid =
      .ok (assignRanks 1 (sortStandings (calculate_standings db cid))) ∧
    List.Pairwise (fun a b => keyLe (standingsKey a) (standingsKey b))
      (assignRanks 1 (sortStandings (calculate_standings db cid))) ∧
    ((assignRanks 1 (sortStandings (calculate_standings db cid))).map
      (fun e => e.rank)) =
      (List.range' 1 (sortStandings (calculate_standings db cid)).length).map some ∧
    (sortStandings (calculate_standings db cid)).filter
        (fun e => standingsKey e = k) =
      (calculate_standings db cid).filter (fun e => standingsKey e = k) := by
  refine ⟨?_, ?_, ?_, ?_⟩
  · simp [get_standings, hfind]
  · exact assignRanks_pairwise 1 _ (sortStandings_pairwise _)
  · exact assignRanks_map_rank 1 _
  · exact sortStandings_filter k _

/-- C7 witness: the amended statement at the tied fixture and the tied
key `(-1, -1)`. -/
theorem claim_C7_witness :
    get_standings dbTiedStandings "c" =
      .ok (assignRanks 1 (sortStandings (calculate_standings dbTiedStandings "c"))) ∧
    List.Pairwise (fun a b => keyLe (standingsKey a) (standingsKey b))
      (assignRanks 1 (sortStandings (calculate_standings dbTiedStandings "c"))) ∧
    ((assignRanks 1 (sortStandings (calculate_standings dbTiedStandings "c"))).map
      (fun e => e.rank)) =
      (List.range' 1
        (sortStandings (calculate_standings dbTiedStandings "c")).length).map some ∧
    (sortStandings (calculate_standings dbTiedStandings "c")).filter
        (fun e => standingsKey e = (-1, -1)) =
      (calculate_standings dbTiedStandings "c").filter
        (fun e => standingsKey e = (-1, -1)) :=
  claim_C7_amended dbTiedStandings "c" baseComp (-1, -1) (by decide)

/-! ## C3 — the seeded order is a permutation pairing lower and upper
half -/

theorem two_pow_div_two (k : Nat) : 2 ^ (k + 1) / 2 = 2 ^ k := by
  rw [pow_succ]
  exact Nat.mul_div_cancel _ (by norm_num)

theorem three_le_two_pow (k : Nat) : 3 ≤ 2 ^ (k + 2) := by
  calc (3 : Nat) ≤ 2 ^ 2 := by norm_num
  _ ≤ 2 ^ (k + 2) := Nat.pow_le_pow_right (by norm_num) (by omega)

/-- `create_seeded_bracket_order` at a bracket size, one halving step. -/
theorem cso_two_pow_step (k : Nat) :
    create_seeded_bracket_order (2 ^ (k + 2)) =
      interleave (create_seeded_bracket_order (2 ^ (k + 1)))
        ((create_seeded_bracket_order (2 ^ (k + 1))).map
          (fun i => 2 ^ (k + 2) - 1 - i)) := by
  rw [create_seeded_bracket_order_eq _ (three_le_two_pow k), two_pow_div_two (k + 1)]

theorem interleave_length : ∀ a b : List Nat, a.length = b.length →
    (interleave a b).length = 2 * a.length
  | [], [], _ => rfl
  | [], _ :: _, h => by simp at h
  | _ :: _, [], h => by simp at h
  | x :: xs, y :: ys, h => by
    simp only [interleave, List.length_cons]
    rw [interleave_length xs ys (by simpa using h)]
    omega

theorem mem_interleave : ∀ (a b : List Nat) (x : Nat),
    x ∈ interleave a b → x ∈ a ∨ x ∈ b
  | [], _, x, h => by simp [interleave] at h
  | _ :: _, [], x, h => by simp [interleave] at h
  | p :: xs, q :: ys, x, h => by
    simp only [interleave, List.mem_cons] at h
    rcases h with rfl | rfl | h
    · exact Or.inl (by simp)
    · exact Or.inr (by simp)
    · rcases mem_interleave xs ys x h with h | h
      · exact Or.inl (by simp [h])
      · exact Or.inr (by simp [h])

theorem interleave_perm : ∀ a b : List Nat, a.length = b.length →
    List.Perm (interleave a b) (a ++ b)
  | [], [], _ => by simp [interleave]
  | [], _ :: _, h => by simp at h
  | _ :: _, [], h => by simp at h
  | x :: xs, y :: ys, h => by
    simp only [interleave, List.cons_append]
    refine ((interleave_perm xs ys (by simpa using h)).cons y).cons x |>.trans ?_
    exact ((List.perm_middle).symm.cons x)

theorem cso_pow_length : ∀ k : Nat, (create_seeded_bracket_order (2 ^ k)).length = 2 ^ k
  | 0 => by decide
  | 1 => by decide
  | k + 2 => by
    rw [cso_two_pow_step k]
    rw [interleave_length _ _ (by simp), cso_pow_length (k + 1), pow_succ 2 (k + 1)]
    ring

theorem cso_pow_mem_lt : ∀ (k : Nat) (x : Nat),
    x ∈ create_seeded_bracket_order (2 ^ k) → x < 2 ^ k
  | 0, x, h => by
    have : create_seeded_bracket_order (2 ^ 0) = [0] := by decide
    rw [this] at h
    simp at h
    omega
  | 1, x, h => by
    have : create_seeded_bracket_order (2 ^ 1) = [0, 1] := by decide
    rw [this] at h
    simp at h
    rcases h with rfl | rfl <;> norm_num
  | k + 2, x, h => by
    rw [cso_two_pow_step k] at h
    rcases mem_interleave _ _ x h with h | h
    · have := cso_pow_mem_lt (k + 1) x h
      have h2 : (2 : Nat) ^ (k + 1) ≤ 2 ^ (k + 2) := Nat.pow_le_pow_right (by norm_num) (by omega)
      omega
    · obtain ⟨t, ht, rfl⟩ := List.mem_map.mp h
      have hlt := cso_pow_mem_lt (k + 1) t ht
      have h3 : (0 : Nat) < 2 ^ (k + 2) := Nat.pos_pow_of_pos _ (by norm_num)
      omega

/-- `map (c - ·) (range h)` enumerates `[c+1-h, c]` (reversed). -/
theorem map_sub_range_perm : ∀ (h c : Nat), h ≤ c + 1 →
    List.Perm ((List.range h).map (fun i => c - i)) (List.range' (c + 1 - h) h)
  | 0, c, _ => by simp
  | h + 1, c, hle => by
    rw [List.range_succ, List.map_append]
    have h1 := map_sub_range_perm h c (by omega)
    refine ((h1.append_right _).trans ?_)
    simp only [List.map_cons, List.map_nil]
    refine (List.perm_append_singleton _ _).trans ?_
    have : c + 1 - (h + 1) = c - h := by omega
    rw [this, List.range'_succ]
    have : c - h + 1 = c + 1 - h := by omega
    rw [this]

/-- The seeded order at a bracket size is a permutation of
`range (2^k)`. -/
theorem cso_pow_perm : ∀ k : Nat, List.Perm (create_seeded_bracket_order (2 ^ k)) (List.range (2 ^ k))
  | 0 => by decide
  | 1 => by decide
  | k + 2 => by
    rw [cso_two_pow_step k]
    have hlen : (create_seeded_bracket_order (2 ^ (k + 1))).length =
        ((create_seeded_bracket_order (2 ^ (k + 1))).map
          (fun i => 2 ^ (k + 2) - 1 - i)).length := by simp
    refine (interleave_perm _ _ hlen).trans ?_
    have ih := cso_pow_perm (k + 1)
    have hmap : (create_seeded_bracket_order (2 ^ (k + 1))).map
        (fun i => 2 ^ (k + 2) - 1 - i) |>
        (fun ml => List.Perm ml (List.range' (2 ^ (k + 1)) (2 ^ (k + 1)))) := by
      refine (ih.map _).trans ?_
      have := map_sub_range_perm (2 ^ (k + 1)) (2 ^ (k + 2) - 1)
        (by have := Nat.pow_le_pow_right (show 1 ≤ 2 by norm_num)
              (show k + 1 ≤ k + 2 by omega)
            have h3 : (0 : Nat) < 2 ^ (k + 2) := Nat.pos_pow_of_pos _ (by norm_num)
            omega)
      have heq : 2 ^ (k + 2) - 1 + 1 - 2 ^ (k + 1) = 2 ^ (k + 1) := by
        have : (2 : Nat) ^ (k + 2) = 2 ^ (k + 1) * 2 := by rw [pow_succ]
        have h3 : (0 : Nat) < 2 ^ (k + 1) := Nat.pos_pow_of_pos _ (by norm_num)
        omega
      rw [heq] at this
      exact this
    refine (ih.append hmap).trans ?_
    rw [List.range_eq_range', List.range_eq_range']
    have : List.range' 0 (2 ^ (k + 1)) ++ List.range' (0 + 2 ^ (k + 1)) (2 ^ (k + 1)) =
        List.range' 0 (2 ^ (k + 1) + 2 ^ (k + 1)) := by
      rw [List.range'_append_1]
    simp only [Nat.zero_add] at this
    rw [this]
    have : (2 : Nat) ^ (k + 1) + 2 ^ (k + 1) = 2 ^ (k + 2) := by
      have : (2 : Nat) ^ (k + 2) = 2 ^ (k + 1) * 2 := by rw [pow_succ]
      omega
    rw [this]

/-- Reading the bye-padded slot list below the participant count gives a
real participant. -/
theorem padded_getD_lt (ps : List String) (b i : Nat) (hi : i < ps.length) :
    ∃ s, (ps.map some ++ List.replicate b none).getD i none = some s ∧ s ∈ ps := by
  have hlen : i < (ps.map some).length := by simpa using hi
  refine ⟨ps[i], ?_, List.getElem_mem hi⟩
  rw [List.getD_eq_getElem?_getD, List.getElem?_append_left hlen, List.getElem?_map,
    List.getElem?_eq_getElem hi]
  rfl

/-- Reading the bye-padded slot list at or beyond the participant count
gives a bye. -/
theorem padded_getD_ge (ps : List String) (b i : Nat) (hge : ps.length ≤ i) :
    (ps.map some ++ List.replicate b none).getD i none = none := by
  rw [List.getD_eq_getElem?_getD, List.getElem?_append_right (by simpa using hge)]
  rw [List.getElem?_replicate]
  split <;> rfl

/-- A good round-one slot list arises from interleaving strong (lower
half) and weak (upper half) slot indices. -/
theorem r1Good_interleave_map (f : Nat → Option String × Nat) :
    ∀ a b : List Nat, a.length = b.length →
      (∀ x ∈ a, ∃ s, (f x).1 = some s ∧ s ≠ "") →
      (∀ x ∈ b, (f x).1 = none ∨ ∃ s, (f x).1 = some s ∧ s ≠ "") →
      r1Good ((interleave a b).map f)
  | [], [], _, _, _ => by simp [interleave, r1Good]
  | [], _ :: _, h, _, _ => by simp at h
  | _ :: _, [], h, _, _ => by simp at h
  | x :: xs, y :: ys, h, ha, hb => by
    simp only [interleave, List.map_cons]
    show (∃ s, (f x).1 = some s ∧ s ≠ "") ∧
      ((f y).1 = none ∨ ∃ s, (f y).1 = some s ∧ s ≠ "") ∧
      r1Good ((interleave xs ys).map f)
    exact ⟨ha x (by simp), hb y (by simp),
      r1Good_interleave_map f xs ys (by simpa using h)
        (fun z hz => ha z (by simp [hz])) (fun z hz => hb z (by simp [hz]))⟩

/-- Everything the counting argument needs about the seeded first round:
matches are `okMatch` with `round_number = 1`, there are half as many
matches as slots, the bye matches are exactly the pairs whose weak slot
is empty, and the rest are playable. -/
theorem buildRound1Seeded_props (cid tid now : String) (n : Nat) :
    ∀ (l : List (Option String × Nat)) (k : Nat), r1Good l →
      (∀ m ∈ buildRound1Seeded cid tid now 0 n k l, okMatch m ∧ m.round_number = 1) ∧
      2 * (buildRound1Seeded cid tid now 0 n k l).length = l.length ∧
      ((buildRound1Seeded cid tid now 0 n k l).filter isByeMatch).length =
        (l.filter (fun x => x.1 = none)).length ∧
      liveCount (buildRound1Seeded cid tid now 0 n k l) +
          (l.filter (fun x => x.1 = none)).length =
        (buildRound1Seeded cid tid now 0 n k l).length
  | [], _, _ => by simp [buildRound1Seeded, liveCount]
  | [(p1, s1)], _, hg => absurd hg (by simp [r1Good])
  | (p1, s1) :: (p2, s2) :: rest, k, hg => by
    obtain ⟨⟨s, hp1, hs⟩, hp2, hrest⟩ :
        (∃ s, p1 = some s ∧ s ≠ "") ∧
        (p2 = none ∨ ∃ t, p2 = some t ∧ t ≠ "") ∧ r1Good rest := hg
    obtain ⟨hall, hlen, hbye, hlive⟩ :=
      buildRound1Seeded_props cid tid now n rest (k + 1) hrest
    subst hp1
    rcases hp2 with rfl | ⟨t, rfl, ht⟩
    · -- second slot empty: a bye, completed at creation
      have hbyehead : buildRound1Seeded cid tid now 0 n k
          ((some s, s1) :: (none, s2) :: rest) =
          (autoBye
            { id := k, tournament_id := tid, competition_id := cid,
              round_number := 1, match_number := k, group_number := none,
              participant1_id := some s, participant2_id := none,
              seed1 := if s1 < n then some (s1 + 1) else none,
              seed2 := if s2 < n then some (s2 + 1) else none,
              winner_id := none, resource_id := none, scheduled_time := none,
              status := "pending", scores := [],
              bracket_position := "R" ++ toString 1 ++ "-M" ++ toString k,
              bracket_type := none, next_match_id := none, created_at := now })
            :: buildRound1Seeded cid tid now 0 n (k + 1) rest := rfl
      have hab : autoBye
          { id := k, tournament_id := tid, competition_id := cid,
            round_number := 1, match_number := k, group_number := none,
            participant1_id := some s, participant2_id := none,
            seed1 := if s1 < n then some (s1 + 1) else none,
            seed2 := if s2 < n then some (s2 + 1) else none,
            winner_id := none, resource_id := none, scheduled_time := none,
            status := "pending", scores := [],
            bracket_position := "R" ++ toString 1 ++ "-M" ++ toString k,
            bracket_type := none, next_match_id := none, created_at := now } =
          { id := k, tournament_id := tid, competition_id := cid,
            round_number := 1, match_number := k, group_number := none,
            participant1_id := some s, participant2_id := none,
            seed1 := if s1 < n then some (s1 + 1) else none,
            seed2 := if s2 < n then some (s2 + 1) else none,
            winner_id := some s, resource_id := none, scheduled_time := none,
            status := "completed", scores := [],
            bracket_position := "R" ++ toString 1 ++ "-M" ++ toString k,
            bracket_type := none, next_match_id := none, created_at := now } := by
        rw [autoBye]
        rw [if_pos ⟨rfl, by simp [truthyS, hs]⟩]
      rw [hbyehead, hab]
      refine ⟨?_, ?_, ?_, ?_⟩
      · intro m hm
        rcases List.mem_cons.mp hm with rfl | hm
        · exact ⟨Or.inr ⟨rfl, ⟨s, rfl, hs⟩, Or.inr rfl⟩, rfl⟩
        · exact hall m hm
      · simp only [List.length_cons]
        omega
      · have h1 : isByeMatch
            { id := k, tournament_id := tid, competition_id := cid,
              round_number := 1, match_number := k, group_number := none,
              participant1_id := some s, participant2_id := none,
              seed1 := if s1 < n then some (s1 + 1) else none,
              seed2 := if s2 < n then some (s2 + 1) else none,
              winner_id := some s, resource_id := none, scheduled_time := none,
              status := "completed", scores := [],
              bracket_position := "R" ++ toString 1 ++ "-M" ++ toString k,
              bracket_type := none, next_match_id := none, created_at := now } = true := rfl

        rw [List.filter_cons_of_pos h1]
        simp [hbye]
      · simp only [liveCount]
        have h2 : playable
            { id := k, tournament_id := tid, competition_id := cid,
              round_number := 1, match_number := k, group_number := none,
              participant1_id := some s, participant2_id := none,
              seed1 := if s1 < n then some (s1 + 1) else none,
              seed2 := if s2 < n then some (s2 + 1) else none,
              winner_id := some s, resource_id := none, scheduled_time := none,
              status := "completed", scores := [],
              bracket_position := "R" ++ toString 1 ++ "-M" ++ toString k,
              bracket_type := none, next_match_id := none, created_at := now } = false := rfl
        have h2n : ¬ (playable
            { id := k, tournament_id := tid, competition_id := cid,
              round_number := 1, match_number := k, group_number := none,
              participant1_id := some s, participant2_id := none,
              seed1 := if s1 < n then some (s1 + 1) else none,
              seed2 := if s2 < n then some (s2 + 1) else none,
              winner_id := some s, resource_id := none, scheduled_time := none,
              status := "completed", scores := [],
              bracket_position := "R" ++ toString 1 ++ "-M" ++ toString k,
              bracket_type := none, next_match_id := none, created_at := now } = true) :=
          Bool.false_ne_true
        rw [List.filter_cons_of_neg h2n]
        simp only [liveCount] at hlive
        simp
        omega
    · -- both slots concrete: a playable match
      have hhead : buildRound1Seeded cid tid now 0 n k
          ((some s, s1) :: (some t, s2) :: rest) =
          (autoBye
            { id := k, tournament_id := tid, competition_id := cid,
              round_number := 1, match_number := k, group_number := none,
              participant1_id := some s, participant2_id := some t,
              seed1 := if s1 < n then some (s1 + 1) else none,
              seed2 := if s2 < n then some (s2 + 1) else none,
              winner_id := none, resource_id := none, scheduled_time := none,
              status := "pending", scores := [],
              bracket_position := "R" ++ toString 1 ++ "-M" ++ toString k,
              bracket_type := none, next_match_id := none, created_at := now })
            :: buildRound1Seeded cid tid now 0 n (k + 1) rest := rfl
      have hab : autoBye
          { id := k, tournament_id := tid, competition_id := cid,
            round_number := 1, match_number := k, group_number := none,
            participant1_id := some s, participant2_id := some t,
            seed1 := if s1 < n then some (s1 + 1) else none,
            seed2 := if s2 < n then some (s2 + 1) else none,
            winner_id := none, resource_id := none, scheduled_time := none,
            status := "pending", scores := [],
            bracket_position := "R" ++ toString 1 ++ "-M" ++ toString k,
            bracket_type := none, next_match_id := none, created_at := now } =
          { id := k, tournament_id := tid, competition_id := cid,
            round_number := 1, match_number := k, group_number := none,
            participant1_id := some s, participant2_id := some t,
            seed1 := if s1 < n then some (s1 + 1) else none,
            seed2 := if s2 < n then some (s2 + 1) else none,
            winner_id := none, resource_id := none, scheduled_time := none,
            status := "pending", scores := [],
            bracket_position := "R" ++ toString 1 ++ "-M" ++ toString k,
            bracket_type := none, next_match_id := none, created_at := now } := by
        rw [autoBye]
        rw [if_neg (by simp), if_neg (by simp)]
      rw [hhead, hab]
      refine ⟨?_, ?_, ?_, ?_⟩
      · intro m hm
        rcases List.mem_cons.mp hm with rfl | hm
        · exact ⟨Or.inl ⟨rfl, rfl, rfl, rfl⟩, rfl⟩
        · exact hall m hm
      · simp only [List.length_cons]
        omega
      · have h1 : isByeMatch
            { id := k, tournament_id := tid, competition_id := cid,
              round_number := 1, match_number := k, group_number := none,
              participant1_id := some s, participant2_id := some t,
              seed1 := if s1 < n then some (s1 + 1) else none,
              seed2 := if s2 < n then some (s2 + 1) else none,
              winner_id := none, resource_id := none, scheduled_time := none,
              status := "pending", scores := [],
              bracket_position := "R" ++ toString 1 ++ "-M" ++ toString k,
              bracket_type := none, next_match_id := none, created_at := now } = false := rfl
        have h1n : ¬ (isByeMatch
            { id := k, tournament_id := tid, competition_id := cid,
              round_number := 1, match_number := k, group_number := none,
              participant1_id := some s, participant2_id := some t,
              seed1 := if s1 < n then some (s1 + 1) else none,
              seed2 := if s2 < n then some (s2 + 1) else none,
              winner_id := none, resource_id := none, scheduled_time := none,
              status := "pending", scores := [],
              bracket_position := "R" ++ toString 1 ++ "-M" ++ toString k,
              bracket_type := none, next_match_id := none, created_at := now } = true) :=
          Bool.false_ne_true
        rw [List.filter_cons_of_neg h1n]
        simpa using hbye
      · simp only [liveCount]
        have h2 : playable
            { id := k, tournament_id := tid, competition_id := cid,
              round_number := 1, match_number := k, group_number := none,
              participant1_id := some s, participant2_id := some t,
              seed1 := if s1 < n then some (s1 + 1) else none,
              seed2 := if s2 < n then some (s2 + 1) else none,
              winner_id := none, resource_id := none, scheduled_time := none,
              status := "pending", scores := [],
              bracket_position := "R" ++ toString 1 ++ "-M" ++ toString k,
              bracket_type := none, next_match_id := none, created_at := now } = true := rfl
        rw [List.filter_cons_of_pos h2]
        simp only [liveCount] at hlive
        simp
        omega

/-! ## C3 — playing a healthy round decides every match -/

theorem fillFirstNull_id (w : Option String) (x : Match) :
    (fillFirstNull w x).id = x.id := by
  unfold fillFirstNull
  split
  · rfl
  · split <;> rfl

theorem fillFirstNull_winner (w : Option String) (x : Match) :
    (fillFirstNull w x).winner_id = x.winner_id := by
  unfold fillFirstNull
  split
  · rfl
  · split <;> rfl

theorem fillFirstNull_status (w : Option String) (x : Match) :
    (fillFirstNull w x).status = x.status := by
  unfold fillFirstNull
  split
  · rfl
  · split <;> rfl

theorem playMatch_winner_isSome (choice : Nat → Bool) (m : Match)
    (h1 : m.participant1_id.isSome = true) (h2 : m.participant2_id.isSome = true) :
    ((playMatch choice m).winner_id).isSome = true := by
  by_cases hc : choice m.id <;> simp [playMatch, hc, h1, h2]

/-- Playing one round: every `okMatch` round member ends with a winner,
and exactly the playable ones end contested. -/
theorem playRound_counts (choice : Nat → Bool) :
    ∀ l : List Match, (∀ m ∈ l, okMatch m) →
      (∀ m ∈ playRound choice l, (m.winner_id).isSome = true) ∧
      (playRound choice l).length = l.length ∧
      contestedIn (playRound choice l) = liveCount l
  | [], _ => by simp [playRound, contestedIn, liveCount]
  | m :: rest, hok => by
    obtain ⟨hall, hlen, hcontested⟩ :=
      playRound_counts choice rest (fun x hx => hok x (by simp [hx]))
    have hm := hok m (by simp)
    have hcons : playRound choice (m :: rest) =
        (if playable m then playMatch choice m else m) :: playRound choice rest := rfl
    rcases hm with ⟨hst, hwin, h1, h2⟩ | ⟨hst, ⟨w, hw, hwne⟩, hslot⟩
    · -- live: playable, gets a winner from a concrete slot
      have hp : playable m = true := by simp [playable, hst, h1, h2]
      rw [hcons, if_pos hp]
      refine ⟨?_, by simp [hlen], ?_⟩
      · intro x hx
        rcases List.mem_cons.mp hx with rfl | hx
        · exact playMatch_winner_isSome choice m h1 h2
        · exact hall x hx
      · have hw' := playMatch_winner_isSome choice m h1 h2
        have hps1 : (playMatch choice m).participant1_id = m.participant1_id := rfl
        have hps2 : (playMatch choice m).participant2_id = m.participant2_id := rfl
        simp only [contestedIn, liveCount] at hcontested ⊢
        simp [List.filter_cons, hw', hps1, hps2, h1, h2, hp, hcontested]
    · -- bye: completed at creation, keeps its winner, not contested
      have hp : playable m = false := by simp [playable, hst]
      rw [hcons, if_neg (by simp [hp])]
      refine ⟨?_, by simp [hlen], ?_⟩
      · intro x hx
        rcases List.mem_cons.mp hx with rfl | hx
        · simp [hw]
        · exact hall x hx
      · simp only [contestedIn, liveCount] at hcontested ⊢
        rcases hslot with h | h <;>
          simp [List.filter_cons, h, hp, hcontested]

/-- Linking a round towards its successor preserves everything the
counting argument reads. -/
theorem nextRoundBuild_prev_props (cid tid now : String) (r : Nat) :
    ∀ (cur : List Match) (c : Nat),
      (nextRoundBuild cid tid now r c cur).1.length = cur.length ∧
      ((∀ m ∈ cur, okMatch m) →
        ∀ m ∈ (nextRoundBuild cid tid now r c cur).1, okMatch m) ∧
      liveCount (nextRoundBuild cid tid now r c cur).1 = liveCount cur ∧
      (∀ m ∈ (nextRoundBuild cid tid now r c cur).1, ∀ j,
        m.next_match_id = some j → c ≤ j)
  | [], c => by simp [nextRoundBuild, liveCount]
  | [a], c => by
    refine ⟨rfl, ?_, ?_, ?_⟩
    · intro hok m hm
      rcases List.mem_singleton.mp hm with rfl
      have := hok a (by simp)
      rcases this with ⟨hst, hwin, h1, h2⟩ | ⟨hst, hw, hslot⟩
      · exact Or.inl ⟨hst, hwin, h1, h2⟩
      · exact Or.inr ⟨hst, hw, hslot⟩
    · have ha : playable ({ a with next_match_id := some c } : Match) = playable a := rfl
      by_cases hpa : playable a <;>
        simp [liveCount, nextRoundBuild, List.filter, ha, hpa]
    · intro m hm j hj
      rcases List.mem_singleton.mp hm with rfl
      simp only [show ({ a with next_match_id := some c } : Match).next_match_id =
        some c from rfl, Option.some_inj] at hj
      omega
  | a :: b :: rest, c => by
    obtain ⟨ihlen, ihok, ihlive, ihids⟩ :=
      nextRoundBuild_prev_props cid tid now r rest (c + 1)
    have hstruct : (nextRoundBuild cid tid now r c (a :: b :: rest)).1 =
        { a with next_match_id := some c } :: { b with next_match_id := some c } ::
          (nextRoundBuild cid tid now r (c + 1) rest).1 := rfl
    rw [hstruct]
    refine ⟨by simp [ihlen], ?_, ?_, ?_⟩
    · intro hok m hm
      rcases List.mem_cons.mp hm with rfl | hm
      · have := hok a (by simp)
        rcases this with ⟨hst, hwin, h1, h2⟩ | ⟨hst, hw, hslot⟩
        · exact Or.inl ⟨hst, hwin, h1, h2⟩
        · exact Or.inr ⟨hst, hw, hslot⟩
      rcases List.mem_cons.mp hm with rfl | hm
      · have := hok b (by simp)
        rcases this with ⟨hst, hwin, h1, h2⟩ | ⟨hst, hw, hslot⟩
        · exact Or.inl ⟨hst, hwin, h1, h2⟩
        · exact Or.inr ⟨hst, hw, hslot⟩
      · exact ihok (fun x hx => hok x (by simp [hx])) m hm
    · simp only [liveCount, List.filter_cons] at ihlive ⊢
      have ha : playable { a with next_match_id := some c } = playable a := rfl
      have hb : playable { b with next_match_id := some c } = playable b := rfl
      rw [ha, hb]
      by_cases hpa : playable a <;> by_cases hpb : playable b <;>
        simp [hpa, hpb, ihlive]
    · intro m hm j hj
      rcases List.mem_cons.mp hm with rfl | hm
      · simp only [show ({ a with next_match_id := some c } : Match).next_match_id =
          some c from rfl, Option.some_inj] at hj
        omega
      rcases List.mem_cons.mp hm with rfl | hm
      · simp only [show ({ b with next_match_id := some c } : Match).next_match_id =
          some c from rfl, Option.some_inj] at hj
        omega
      · have := ihids m hm j hj
        omega

theorem nextRoundBuild_new_length (cid tid now : String) (r : Nat) :
    ∀ (cur : List Match) (c : Nat),
      (nextRoundBuild cid tid now r c cur).2.length = (cur.length + 1) / 2
  | [], c => rfl
  | [a], c => by simp [nextRoundBuild]
  | a :: b :: rest, c => by
    have := nextRoundBuild_new_length cid tid now r rest (c + 1)
    simp only [nextRoundBuild, List.length_cons]
    omega

theorem propagateInto_of_next_some (src : Match) (l : List Match) (nid : Nat)
    (hn : src.next_match_id = some nid) :
    propagateInto src l =
      if (src.winner_id).isSome then updateMatchById nid (fillFirstNull src.winner_id) l
      else l := by
  unfold propagateInto
  rw [hn]

theorem propagateInto_of_next_none (src : Match) (l : List Match)
    (hn : src.next_match_id = none) : propagateInto src l = l := by
  unfold propagateInto
  rw [hn]

theorem updateMatchById_map_winner (nid : Nat) (f : Match → Match)
    (hf : ∀ x, (f x).winner_id = x.winner_id) :
    ∀ l : List Match,
      (updateMatchById nid f l).map Match.winner_id = l.map Match.winner_id
  | [] => rfl
  | m :: rest => by
    unfold updateMatchById
    by_cases h : m.id = nid
    · simp [h, hf]
    · simp [h, updateMatchById_map_winner nid f hf rest]

theorem propagateInto_map_winner (src : Match) (l : List Match) :
    (propagateInto src l).map Match.winner_id = l.map Match.winner_id := by
  cases hn : src.next_match_id with
  | none => rw [propagateInto_of_next_none src l hn]
  | some nid =>
    rw [propagateInto_of_next_some src l nid hn]
    split
    · exact updateMatchById_map_winner nid _ (fillFirstNull_winner src.winner_id) l
    · rfl

theorem propagateRound_map_winner (choice : Nat → Bool) :
    ∀ (src next : List Match),
      (propagateRound choice src next).map Match.winner_id = next.map Match.winner_id
  | [], next => rfl
  | m :: rest, next => by
    have hstep : propagateRound choice (m :: rest) next =
        propagateRound choice rest
          (if playable m then propagateInto (playMatch choice m) next else next) := rfl
    rw [hstep, propagateRound_map_winner choice rest]
    split
    · exact propagateInto_map_winner _ _
    · rfl

theorem nextRoundBuild_snd_eq (cid tid now : String) (r : Nat) :
    ∀ (cur : List Match) (k : Nat),
      (nextRoundBuild cid tid now r k cur).2 =
        nrbFromWinners cid tid now r k (cur.map Match.winner_id)
  | [], _ => rfl
  | [_], _ => rfl
  | a :: b :: rest, k =>
    congrArg (List.cons (nrbBlank cid tid now r k a.winner_id b.winner_id))
      (nextRoundBuild_snd_eq cid tid now r rest (k + 1))

/-- The new round only reads the source round's winner column. -/
theorem nextRoundBuild_snd_congr (cid tid now : String) (r k : Nat)
    (cur₁ cur₂ : List Match)
    (h : cur₁.map Match.winner_id = cur₂.map Match.winner_id) :
    (nextRoundBuild cid tid now r k cur₁).2 = (nextRoundBuild cid tid now r k cur₂).2 := by
  rw [nextRoundBuild_snd_eq, nextRoundBuild_snd_eq, h]

theorem updateMatchById_cons (nid : Nat) (f : Match → Match) (x : Match) (xs : List Match) :
    updateMatchById nid f (x :: xs) =
      if x.id = nid then f x :: xs else x :: updateMatchById nid f xs := rfl

theorem fillFirstNull_link_comm (w : Option String) (x : Match) (v : Option Nat) :
    fillFirstNull w { x with next_match_id := v } =
      { fillFirstNull w x with next_match_id := v } := by
  have e1 : ({ x with next_match_id := v } : Match).participant1_id =
      x.participant1_id := rfl
  have e2 : ({ x with next_match_id := v } : Match).participant2_id =
      x.participant2_id := rfl
  unfold fillFirstNull
  rw [e1, e2]
  by_cases h1 : x.participant1_id = none
  · rw [if_pos h1, if_pos h1]
  · rw [if_neg h1, if_neg h1]
    by_cases h2 : x.participant2_id = none
    · rw [if_pos h2, if_pos h2]
    · rw [if_neg h2, if_neg h2]

/-- Filling a winner slot commutes with attaching the next-round links. -/
theorem updateMatchById_nrb_fst_comm (cid tid now : String) (r : Nat)
    (nid : Nat) (w : Option String) :
    ∀ (cur : List Match) (k : Nat),
      updateMatchById nid (fillFirstNull w) (nextRoundBuild cid tid now r k cur).1 =
        (nextRoundBuild cid tid now r k (updateMatchById nid (fillFirstNull w) cur)).1
  | [], _ => rfl
  | [a], k => by
    rw [show (nextRoundBuild cid tid now r k [a]).1 =
        [{ a with next_match_id := some k }] from rfl,
      updateMatchById_cons nid (fillFirstNull w) { a with next_match_id := some k } [],
      updateMatchById_cons nid (fillFirstNull w) a []]
    by_cases h : a.id = nid
    · rw [if_pos (show ({ a with next_match_id := some k } : Match).id = nid from h),
        if_pos h,
        show (nextRoundBuild cid tid now r k [fillFirstNull w a]).1 =
          [{ fillFirstNull w a with next_match_id := some k }] from rfl,
        fillFirstNull_link_comm]
    · rw [if_neg (show ¬ ({ a with next_match_id := some k } : Match).id = nid from h),
        if_neg h]
      rfl
  | a :: b :: rest, k => by
    rw [show (nextRoundBuild cid tid now r k (a :: b :: rest)).1 =
        { a with next_match_id := some k } :: { b with next_match_id := some k } ::
          (nextRoundBuild cid tid now r (k + 1) rest).1 from rfl,
      updateMatchById_cons nid (fillFirstNull w) { a with next_match_id := some k }
        ({ b with next_match_id := some k } :: (nextRoundBuild cid tid now r (k + 1) rest).1),
      updateMatchById_cons nid (fillFirstNull w) a (b :: rest)]
    by_cases ha : a.id = nid
    · rw [if_pos (show ({ a with next_match_id := some k } : Match).id = nid from ha),
        if_pos ha,
        show (nextRoundBuild cid tid now r k (fillFirstNull w a :: b :: rest)).1 =
          { fillFirstNull w a with next_match_id := some k } ::
            { b with next_match_id := some k } ::
            (nextRoundBuild cid tid now r (k + 1) rest).1 from rfl,
        fillFirstNull_link_comm]
    · rw [if_neg (show ¬ ({ a with next_match_id := some k } : Match).id = nid from ha),
        if_neg ha,
        updateMatchById_cons nid (fillFirstNull w) { b with next_match_id := some k }
          (nextRoundBuild cid tid now r (k + 1) rest).1,
        updateMatchById_cons nid (fillFirstNull w) b rest]
      by_cases hb : b.id = nid
      · rw [if_pos (show ({ b with next_match_id := some k } : Match).id = nid from hb),
          if_pos hb,
          show (nextRoundBuild cid tid now r k (a :: fillFirstNull w b :: rest)).1 =
            { a with next_match_id := some k } ::
              { fillFirstNull w b with next_match_id := some k } ::
              (nextRoundBuild cid tid now r (k + 1) rest).1 from rfl,
          fillFirstNull_link_comm]
      · rw [if_neg (show ¬ ({ b with next_match_id := some k } : Match).id = nid from hb),
          if_neg hb,
          show (nextRoundBuild cid tid now r k
              (a :: b :: updateMatchById nid (fillFirstNull w) rest)).1 =
            { a with next_match_id := some k } :: { b with next_match_id := some k } ::
              (nextRoundBuild cid tid now r (k + 1)
                (updateMatchById nid (fillFirstNull w) rest)).1 from rfl,
          updateMatchById_nrb_fst_comm cid tid now r nid w rest (k + 1)]

theorem propagateInto_nrb_fst_comm (cid tid now : String) (r : Nat) (src : Match)
    (cur : List Match) (k : Nat) :
    propagateInto src (nextRoundBuild cid tid now r k cur).1 =
      (nextRoundBuild cid tid now r k (propagateInto src cur)).1 := by
  cases hn : src.next_match_id with
  | none => rw [propagateInto_of_next_none _ _ hn, propagateInto_of_next_none _ _ hn]
  | some nid =>
    rw [propagateInto_of_next_some _ _ nid hn, propagateInto_of_next_some _ _ nid hn]
    split
    · exact updateMatchById_nrb_fst_comm cid tid now r nid src.winner_id cur k
    · rfl

/-- Propagating a round's winners into the raw next round and then linking
it onward is the same as propagating into the already-linked round. -/
theorem propagateRound_nrb_fst_comm (choice : Nat → Bool) (cid tid now : String)
    (r : Nat) :
    ∀ (src cur : List Match) (k : Nat),
      propagateRound choice src (nextRoundBuild cid tid now r k cur).1 =
        (nextRoundBuild cid tid now r k (propagateRound choice src cur)).1
  | [], _, _ => rfl
  | m :: rest, cur, k => by
    have h1 : propagateRound choice (m :: rest) (nextRoundBuild cid tid now r k cur).1 =
        propagateRound choice rest
          (if playable m then
            propagateInto (playMatch choice m) (nextRoundBuild cid tid now r k cur).1
          else (nextRoundBuild cid tid now r k cur).1) := rfl
    have h2 : propagateRound choice (m :: rest) cur =
        propagateRound choice rest
          (if playable m then propagateInto (playMatch choice m) cur else cur) := rfl
    rw [h1, h2]
    by_cases hp : playable m
    · rw [if_pos hp, if_pos hp, propagateInto_nrb_fst_comm,
        propagateRound_nrb_fst_comm choice cid tid now r rest _ k]
    · rw [if_neg hp, if_neg hp,
        propagateRound_nrb_fst_comm choice cid tid now r rest cur k]

theorem propagateInto_cons_ne (src x : Match) (xs : List Match)
    (h : ∀ j, src.next_match_id = some j → j ≠ x.id) :
    propagateInto src (x :: xs) = x :: propagateInto src xs := by
  cases hn : src.next_match_id with
  | none => rw [propagateInto_of_next_none _ _ hn, propagateInto_of_next_none _ _ hn]
  | some nid =>
    rw [propagateInto_of_next_some _ _ nid hn, propagateInto_of_next_some _ _ nid hn]
    split
    · rw [updateMatchById_cons, if_neg (fun hx => h nid hn hx.symm)]
    · rfl

/-- A propagation whose sources all target ids other than the head's
leaves the head untouched. -/
theorem propagateRound_skip_head (choice : Nat → Bool) :
    ∀ (src : List Match) (x : Match) (xs : List Match),
      (∀ m ∈ src, ∀ j, m.next_match_id = some j → j ≠ x.id) →
      propagateRound choice src (x :: xs) = x :: propagateRound choice src xs
  | [], _, _, _ => rfl
  | m :: rest, x, xs, h => by
    have h1 : propagateRound choice (m :: rest) (x :: xs) =
        propagateRound choice rest
          (if playable m then propagateInto (playMatch choice m) (x :: xs)
          else (x :: xs)) := rfl
    have h2 : propagateRound choice (m :: rest) xs =
        propagateRound choice rest
          (if playable m then propagateInto (playMatch choice m) xs else xs) := rfl
    rw [h1, h2]
    by_cases hp : playable m
    · rw [if_pos hp, if_pos hp,
        propagateInto_cons_ne (playMatch choice m) x xs (fun j hj => h m (by simp) j hj)]
      exact propagateRound_skip_head choice rest x _
        (fun m' hm' => h m' (by simp [hm']))
    · rw [if_neg hp, if_neg hp]
      exact propagateRound_skip_head choice rest x xs
        (fun m' hm' => h m' (by simp [hm']))

/-- `update_match`-style propagation of a healthy even round's results
into the round `nextRoundBuild` creates for it fills both slots of every
next-round match: the successor round comes out all pending-with-full-
slots, half the size of its source. -/
theorem nextRound_filled (choice : Nat → Bool) (cid tid now : String) (r : Nat) :
    ∀ (cur : List Match) (k : Nat), (∀ m ∈ cur, okMatch m) → 2 ∣ cur.length →
      (∀ m ∈ propagateRound choice (nextRoundBuild cid tid now r k cur).1
          (nextRoundBuild cid tid now r k cur).2,
        m.status = "pending" ∧ m.winner_id = none ∧
        m.participant1_id.isSome = true ∧ m.participant2_id.isSome = true) ∧
      (propagateRound choice (nextRoundBuild cid tid now r k cur).1
        (nextRoundBuild cid tid now r k cur).2).length = cur.length / 2
  | [], k, _, _ => by simp [nextRoundBuild, propagateRound]
  | [a], k, _, hev => by
    obtain ⟨t, ht⟩ := hev
    simp at ht
    omega
  | a :: b :: rest, k, hok, hev => by
    obtain ⟨hallIH, hlenIH⟩ := nextRound_filled choice cid tid now r rest (k + 1)
      (fun m hm => hok m (by simp [hm]))
      (by have h2 := hev; simp at h2; omega)
    have hoka := hok a (by simp)
    have hokb := hok b (by simp)
    have hfst : (nextRoundBuild cid tid now r k (a :: b :: rest)).1 =
        { a with next_match_id := some k } :: { b with next_match_id := some k } ::
          (nextRoundBuild cid tid now r (k + 1) rest).1 := rfl
    have hsnd : (nextRoundBuild cid tid now r k (a :: b :: rest)).2 =
        nrbBlank cid tid now r k a.winner_id b.winner_id ::
          (nextRoundBuild cid tid now r (k + 1) rest).2 := rfl
    rw [hfst, hsnd]
    set a' : Match := { a with next_match_id := some k } with ha'
    set b' : Match := { b with next_match_id := some k } with hb'
    set M : Match := nrbBlank cid tid now r k a.winner_id b.winner_id with hM
    set P1 : List Match := (nextRoundBuild cid tid now r (k + 1) rest).1 with hP1
    set R2 : List Match := (nextRoundBuild cid tid now r (k + 1) rest).2 with hR2
    have hstep1 : ∃ p1 : Option String,
        (if playable a' then propagateInto (playMatch choice a') (M :: R2)
         else (M :: R2)) =
          { M with participant1_id := p1 } :: R2 ∧ p1.isSome = true := by
      rcases hoka with ⟨hst, hwin, h1, h2⟩ | ⟨hst, ⟨w, hw, hwne⟩, _⟩
      · have hpa : playable a' = true := by simp [playable, ha', hst, h1, h2]
        refine ⟨(playMatch choice a').winner_id, ?_,
          playMatch_winner_isSome choice a' h1 h2⟩
        rw [if_pos hpa,
          propagateInto_of_next_some (playMatch choice a') (M :: R2) k rfl,
          if_pos (playMatch_winner_isSome choice a' h1 h2),
          updateMatchById_cons k (fillFirstNull (playMatch choice a').winner_id) M R2,
          if_pos (show M.id = k from rfl)]
        have hM1 : M.participant1_id = none := by simp [hM, nrbBlank, hwin, truthyS]
        have hfill : fillFirstNull (playMatch choice a').winner_id M =
            { M with participant1_id := (playMatch choice a').winner_id } := by
          unfold fillFirstNull
          rw [if_pos hM1]
        rw [hfill]
      · have hpa : playable a' = false := by simp [playable, ha', hst]
        refine ⟨M.participant1_id, ?_, ?_⟩
        · rw [if_neg (by simp [hpa])]
        · simp [hM, nrbBlank, hw, truthyS, hwne]
    obtain ⟨p1, hs1, hp1⟩ := hstep1
    have hd1 : propagateRound choice (a' :: b' :: P1) (M :: R2) =
        propagateRound choice (b' :: P1)
          (if playable a' then propagateInto (playMatch choice a') (M :: R2)
           else (M :: R2)) := rfl
    rw [hd1, hs1]
    have hstep2 : ∃ p2 : Option String,
        (if playable b' then
          propagateInto (playMatch choice b') ({ M with participant1_id := p1 } :: R2)
         else ({ M with participant1_id := p1 } :: R2)) =
          { M with participant1_id := p1, participant2_id := p2 } :: R2 ∧
        p2.isSome = true := by
      rcases hokb with ⟨hst, hwin, h1, h2⟩ | ⟨hst, ⟨w, hw, hwne⟩, _⟩
      · have hpb : playable b' = true := by simp [playable, hb', hst, h1, h2]
        refine ⟨(playMatch choice b').winner_id, ?_,
          playMatch_winner_isSome choice b' h1 h2⟩
        rw [if_pos hpb,
          propagateInto_of_next_some (playMatch choice b')
            ({ M with participant1_id := p1 } :: R2) k rfl,
          if_pos (playMatch_winner_isSome choice b' h1 h2),
          updateMatchById_cons k (fillFirstNull (playMatch choice b').winner_id)
            { M with participant1_id := p1 } R2,
          if_pos (show ({ M with participant1_id := p1 } : Match).id = k from rfl)]
        have hM2 : ({ M with participant1_id := p1 } : Match).participant2_id = none := by
          simp [hM, nrbBlank, hwin, truthyS]
        have hne1 : ¬ ({ M with participant1_id := p1 } : Match).participant1_id = none := by
          show ¬ p1 = none
          intro hc
          simp [hc] at hp1
        have hfill : fillFirstNull (playMatch choice b').winner_id
            { M with participant1_id := p1 } =
            { M with participant1_id := p1,
                     participant2_id := (playMatch choice b').winner_id } := by
          unfold fillFirstNull
          rw [if_neg hne1, if_pos hM2]
        rw [hfill]
      · have hpb : playable b' = false := by simp [playable, hb', hst]
        refine ⟨M.participant2_id, ?_, ?_⟩
        · rw [if_neg (by simp [hpb])]
        · simp [hM, nrbBlank, hw, truthyS, hwne]
    obtain ⟨p2, hs2, hp2⟩ := hstep2
    have hd2 : propagateRound choice (b' :: P1) ({ M with participant1_id := p1 } :: R2) =
        propagateRound choice P1
          (if playable b' then
            propagateInto (playMatch choice b') ({ M with participant1_id := p1 } :: R2)
           else ({ M with participant1_id := p1 } :: R2)) := rfl
    rw [hd2, hs2]
    have hids := (nextRoundBuild_prev_props cid tid now r rest (k + 1)).2.2.2
    rw [propagateRound_skip_head choice P1
      { M with participant1_id := p1, participant2_id := p2 } R2
      (fun m hm j hj => by
        have hj' := hids m hm j hj
        show j ≠ k
        omega)]
    constructor
    · intro m hm
      rcases List.mem_cons.mp hm with rfl | hm
      · exact ⟨rfl, rfl, hp1, hp2⟩
      · exact hallIH m hm
    · have h2 := hev
      simp only [List.length_cons] at h2 ⊢
      rw [hlenIH]
      omega

theorem decidedCount_cons (x : List Match) (xs : List (List Match)) :
    decidedCount (x :: xs) = decidedIn x + decidedCount xs := by
  simp [decidedCount, decidedIn, List.filter_append]

theorem contestedCount_cons (x : List Match) (xs : List (List Match)) :
    contestedCount (x :: xs) = contestedIn x + contestedCount xs := by
  simp [contestedCount, contestedIn, List.filter_append]

/-- Playing the skeleton from a given round onwards commutes with first
propagating the pending results into the next round's raw form. -/
theorem elim_carry_shift (choice : Nat → Bool) (cid tid now : String) :
    ∀ (K r c : Nat) (src nxt : List Match),
      playRoundsCarry choice src (elimRoundsAux cid tid now K r c nxt) =
        playRound choice src ::
          playRounds choice
            (elimRoundsAux cid tid now K r c (propagateRound choice src nxt))
  | 0, _, _, _, _ => rfl
  | K + 1, r, c, src, nxt => by
    have hsnd : (nextRoundBuild cid tid now r c (propagateRound choice src nxt)).2 =
        (nextRoundBuild cid tid now r c nxt).2 :=
      nextRoundBuild_snd_congr cid tid now r c _ _
        (propagateRound_map_winner choice src nxt)
    have hLHS : elimRoundsAux cid tid now (K + 1) r c nxt =
        (nextRoundBuild cid tid now r c nxt).1 ::
          elimRoundsAux cid tid now K (r + 1)
            (c + (nextRoundBuild cid tid now r c nxt).2.length)
            (nextRoundBuild cid tid now r c nxt).2 := rfl
    have hRHS : elimRoundsAux cid tid now (K + 1) r c (propagateRound choice src nxt) =
        (nextRoundBuild cid tid now r c (propagateRound choice src nxt)).1 ::
          elimRoundsAux cid tid now K (r + 1)
            (c + (nextRoundBuild cid tid now r c (propagateRound choice src nxt)).2.length)
            (nextRoundBuild cid tid now r c (propagateRound choice src nxt)).2 := rfl
    rw [hLHS, hRHS, hsnd, ← propagateRound_nrb_fst_comm choice cid tid now r src nxt c]
    rfl

/-- Fully playing the elimination skeleton grown from a healthy round of
`2 ^ K` matches decides every one of its `2 ^ (K + 1) - 1` matches; the
contested ones are the source round's playable matches plus the whole of
every later round. -/
theorem elim_play_main (choice : Nat → Bool) (cid tid now : String) :
    ∀ (K r c : Nat) (cur : List Match),
      cur.length = 2 ^ K → (∀ m ∈ cur, okMatch m) →
      decidedCount (playRounds choice (elimRoundsAux cid tid now K r c cur)) =
        2 ^ (K + 1) - 1 ∧
      contestedCount (playRounds choice (elimRoundsAux cid tid now K r c cur)) =
        liveCount cur + (2 ^ K - 1)
  | 0, r, c, cur, hlen, hok => by
    obtain ⟨hall, hplen, hcont⟩ := playRound_counts choice cur hok
    have hrounds : elimRoundsAux cid tid now 0 r c cur = [cur] := rfl
    have hplay : playRounds choice [cur] = [playRound choice cur] := rfl
    rw [hrounds, hplay]
    have hdec : decidedIn (playRound choice cur) = (playRound choice cur).length := by
      unfold decidedIn
      rw [List.filter_eq_self.mpr hall]
    constructor
    · rw [decidedCount_cons, hdec, hplen, hlen]
      simp [decidedCount]
    · rw [contestedCount_cons, hcont]
      simp [contestedCount]
  | K + 1, r, c, cur, hlen, hok => by
    set B := nextRoundBuild cid tid now r c cur with hB
    have hrounds : elimRoundsAux cid tid now (K + 1) r c cur =
        B.1 :: elimRoundsAux cid tid now K (r + 1) (c + B.2.length) B.2 := rfl
    have hplay0 : playRounds choice
        (B.1 :: elimRoundsAux cid tid now K (r + 1) (c + B.2.length) B.2) =
        playRoundsCarry choice B.1
          (elimRoundsAux cid tid now K (r + 1) (c + B.2.length) B.2) := rfl
    rw [hrounds, hplay0,
      elim_carry_shift choice cid tid now K (r + 1) (c + B.2.length) B.1 B.2]
    obtain ⟨hBlen, hBok, hBlive, _⟩ := nextRoundBuild_prev_props cid tid now r cur c
    rw [← hB] at hBlen hBlive
    have hBok' : ∀ m ∈ B.1, okMatch m := by
      rw [hB]
      exact hBok hok
    obtain ⟨hall1, hplen1, hcont1⟩ := playRound_counts choice B.1 hBok'
    have hev : 2 ∣ cur.length := ⟨2 ^ K, by rw [hlen]; ring⟩
    obtain ⟨hFok, hFlen⟩ := nextRound_filled choice cid tid now r cur c hok hev
    rw [← hB] at hFok hFlen
    have hFlen' : (propagateRound choice B.1 B.2).length = 2 ^ K := by
      rw [hFlen, hlen, pow_succ]
      omega
    have hFok' : ∀ m ∈ propagateRound choice B.1 B.2, okMatch m := fun m hm =>
      Or.inl ⟨(hFok m hm).1, (hFok m hm).2.1, (hFok m hm).2.2.1, (hFok m hm).2.2.2⟩
    have hFlive : liveCount (propagateRound choice B.1 B.2) =
        (propagateRound choice B.1 B.2).length := by
      unfold liveCount
      rw [List.filter_eq_self.mpr]
      intro m hm
      obtain ⟨hst, _, h1, h2⟩ := hFok m hm
      simp [playable, hst, h1, h2]
    obtain ⟨ihdec, ihcont⟩ := elim_play_main choice cid tid now K (r + 1)
      (c + B.2.length) (propagateRound choice B.1 B.2) hFlen' hFok'
    have hpos : 0 < 2 ^ K := Nat.pos_pow_of_pos K (by norm_num)
    constructor
    · rw [decidedCount_cons, ihdec]
      have hdec1 : decidedIn (playRound choice B.1) = (playRound choice B.1).length := by
        unfold decidedIn
        rw [List.filter_eq_self.mpr hall1]
      rw [hdec1, hplen1, hBlen, hlen, pow_succ 2 (K + 1), pow_succ 2 K]
      omega
    · rw [contestedCount_cons, ihcont, hcont1, hBlive, hFlive, hFlen',
        pow_succ 2 K]
      omega

theorem okMatch_bye (m : Match) (h : okMatch m) (hb : isByeMatch m = true) :
    m.status = "completed" ∧ m.winner_id.isSome = true := by
  rcases h with ⟨_, _, h1, h2⟩ | ⟨hst, ⟨w, hw, _⟩, _⟩
  · exfalso
    simp [isByeMatch, h1, h2] at hb
  · exact ⟨hst, by simp [hw]⟩

theorem nrb_fst_filter_bye (cid tid now : String) (r : Nat) :
    ∀ (cur : List Match) (k : Nat),
      ((nextRoundBuild cid tid now r k cur).1.filter isByeMatch).length =
        (cur.filter isByeMatch).length
  | [], _ => rfl
  | [a], k => by
    have hba : isByeMatch ({ a with next_match_id := some k } : Match) =
        isByeMatch a := rfl
    by_cases hb : isByeMatch a <;> simp [nextRoundBuild, List.filter, hba, hb]
  | a :: b :: rest, k => by
    have hba : isByeMatch ({ a with next_match_id := some k } : Match) =
        isByeMatch a := rfl
    have hbb : isByeMatch ({ b with next_match_id := some k } : Match) =
        isByeMatch b := rfl
    have hfst : (nextRoundBuild cid tid now r k (a :: b :: rest)).1 =
        { a with next_match_id := some k } :: { b with next_match_id := some k } ::
          (nextRoundBuild cid tid now r (k + 1) rest).1 := rfl
    rw [hfst]
    simp only [List.filter_cons, hba, hbb]
    by_cases h1 : isByeMatch a <;> by_cases h2 : isByeMatch b <;>
      simp [h1, h2, nrb_fst_filter_bye cid tid now r rest (k + 1)]

theorem elimRoundsAux_length (cid tid now : String) :
    ∀ (K r c : Nat) (cur : List Match),
      (elimRoundsAux cid tid now K r c cur).length = K + 1
  | 0, _, _, _ => rfl
  | K + 1, r, c, cur => by
    simp only [elimRoundsAux, List.length_cons]
    rw [elimRoundsAux_length cid tid now K]

/-- The first stored round of the skeleton is the source round up to the
`next_match_id` links: same length, still healthy, same bye matches. -/
theorem elimRoundsAux_head_facts (cid tid now : String) (K r c : Nat)
    (cur : List Match) (hok : ∀ m ∈ cur, okMatch m) :
    ((elimRoundsAux cid tid now K r c cur).headD []).length = cur.length ∧
    (∀ m ∈ (elimRoundsAux cid tid now K r c cur).headD [], okMatch m) ∧
    (((elimRoundsAux cid tid now K r c cur).headD []).filter isByeMatch).length =
      (cur.filter isByeMatch).length := by
  cases K with
  | zero => exact ⟨rfl, hok, rfl⟩
  | succ K =>
    have hhead : (elimRoundsAux cid tid now (K + 1) r c cur).headD [] =
        (nextRoundBuild cid tid now r c cur).1 := rfl
    rw [hhead]
    obtain ⟨hlen, hokk, _, _⟩ := nextRoundBuild_prev_props cid tid now r cur c
    exact ⟨hlen, hokk hok, nrb_fst_filter_bye cid tid now r cur c⟩

/-- The recursive halving step, extended down to bracket size 2. -/
theorem cso_pow_succ_step : ∀ k : Nat,
    create_seeded_bracket_order (2 ^ (k + 1)) =
      interleave (create_seeded_bracket_order (2 ^ k))
        ((create_seeded_bracket_order (2 ^ k)).map (fun i => 2 ^ (k + 1) - 1 - i))
  | 0 => by decide
  | k + 1 => cso_two_pow_step k

/-- Among the first `N` slot indices of the bye-padded participant list,
exactly those at or past the participant count read as byes. -/
theorem padded_none_count (ps : List String) (b : Nat) :
    ∀ N, ((List.range N).countP
        (fun i => (ps.map some ++ List.replicate b none).getD i none = none)) =
      N - ps.length
  | 0 => by simp
  | N + 1 => by
    rw [List.range_succ, List.countP_append, padded_none_count ps b N,
      List.countP_cons, List.countP_nil]
    by_cases h : N < ps.length
    · obtain ⟨s, hs, _⟩ := padded_getD_lt ps b N h
      simp only [hs]
      simp
      omega
    · simp only [padded_getD_ge ps b N (by omega)]
      simp
      omega

/-- C3 (amended): for `n ≥ 2` participants with non-empty names, the
seeded single-elimination draw has `R = ceil_log2 n` rounds; its first
round has `2 ^ (R - 1)` matches, of which exactly `2 ^ R - n` are byes
completed at creation with the lone participant as winner; once every
playable match has been played with winners propagated round by round,
exactly `2 ^ R - 1` matches of the draw have a determined winner — not
`n - 1`: byes count too — and exactly `n - 1` of them were decided by
play (both slots concrete) rather than by a bye. -/
theorem claim_C3_amended (choice : Nat → Bool) (ps : List String)
    (cid tid now : String) (h2 : 2 ≤ ps.length) (hne : ∀ p ∈ ps, p ≠ "") :
    (genSeededRounds ps cid tid now 0).length = ceil_log2 ps.length ∧
    ((genSeededRounds ps cid tid now 0).headD []).length =
      2 ^ (ceil_log2 ps.length - 1) ∧
    (∀ m ∈ (genSeededRounds ps cid tid now 0).headD [],
      isByeMatch m = true → m.status = "completed" ∧ m.winner_id.isSome = true) ∧
    (((genSeededRounds ps cid tid now 0).headD []).filter isByeMatch).length =
      2 ^ ceil_log2 ps.length - ps.length ∧
    decidedCount (playRounds choice (genSeededRounds ps cid tid now 0)) =
      2 ^ ceil_log2 ps.length - 1 ∧
    contestedCount (playRounds choice (genSeededRounds ps cid tid now 0)) =
      ps.length - 1 := by
  have h1n : 1 < ps.length := by omega
  have hle : ps.length ≤ 2 ^ ceil_log2 ps.length := by
    rw [ceil_log2_eq_clog]
    exact Nat.le_pow_clog (by norm_num) ps.length
  have hgt : 2 ^ (ceil_log2 ps.length - 1) < ps.length := by
    rw [ceil_log2_eq_clog]
    exact Nat.pow_pred_clog_lt_self (by norm_num) h1n
  have hR1 : 1 ≤ ceil_log2 ps.length := by
    by_contra hc
    have h0 : ceil_log2 ps.length = 0 := by omega
    rw [h0] at hle
    simp at hle
    omega
  set R := ceil_log2 ps.length with hRdef
  obtain ⟨K, hK⟩ : ∃ K, R = K + 1 := ⟨R - 1, by omega⟩
  have hKR : R - 1 = K := by omega
  set padded : List (Option String) :=
    ps.map some ++ List.replicate (2 ^ R - ps.length) none with hpad
  have hpadlen : padded.length = 2 ^ R := by
    rw [hpad]
    simp
    omega
  set f : Nat → Option String × Nat := fun i => (padded.getD i none, i) with hf
  set ordered : List (Option String × Nat) :=
    (create_seeded_bracket_order padded.length).map f with hord
  set round1 : List Match :=
    buildRound1Seeded cid tid now 0 ps.length 1 ordered with hr1
  have hG : genSeededRounds ps cid tid now 0 =
      elimRoundsAux cid tid now (R - 1) 2 (round1.length + 1) round1 := by
    simp only [genSeededRounds]
    rw [if_pos h1n]
  have hSdecomp : create_seeded_bracket_order padded.length =
      interleave (create_seeded_bracket_order (2 ^ K))
        ((create_seeded_bracket_order (2 ^ K)).map (fun i => 2 ^ (K + 1) - 1 - i)) := by
    rw [hpadlen, hK]
    exact cso_pow_succ_step K
  have hgood : r1Good ordered := by
    rw [hord, hSdecomp]
    refine r1Good_interleave_map f _ _ (by simp) ?_ ?_
    · intro x hx
      have hxlt : x < 2 ^ K := cso_pow_mem_lt K x hx
      have hxn : x < ps.length := by
        have h' := hgt
        rw [hKR] at h'
        omega
      obtain ⟨s, hs, hmem⟩ := padded_getD_lt ps (2 ^ R - ps.length) x hxn
      exact ⟨s, hs, hne s hmem⟩
    · intro y hy
      obtain ⟨x, hx, rfl⟩ := List.mem_map.mp hy
      by_cases hyn : 2 ^ (K + 1) - 1 - x < ps.length
      · obtain ⟨s, hs, hmem⟩ := padded_getD_lt ps (2 ^ R - ps.length) _ hyn
        exact Or.inr ⟨s, hs, hne s hmem⟩
      · exact Or.inl (padded_getD_ge ps (2 ^ R - ps.length) _ (by omega))
  obtain ⟨hall1, hlen1, hbye1, hlive1⟩ :=
    buildRound1Seeded_props cid tid now ps.length ordered 1 hgood
  rw [← hr1] at hall1 hlen1 hbye1 hlive1
  have hordlen : ordered.length = 2 ^ R := by
    rw [hord, List.length_map, hpadlen, hK]
    exact cso_pow_length (K + 1)
  have hr1len : round1.length = 2 ^ K := by
    have h' := hlen1
    rw [hordlen, hK, pow_succ] at h'
    omega
  have hnone : (ordered.filter (fun x => x.1 = none)).length = 2 ^ R - ps.length := by
    rw [hord, ← List.countP_eq_length_filter, List.countP_map]
    have hperm : List.Perm (create_seeded_bracket_order padded.length)
        (List.range (2 ^ R)) := by
      rw [hpadlen, hK]
      exact cso_pow_perm (K + 1)
    rw [hperm.countP_eq]
    exact padded_none_count ps (2 ^ R - ps.length) (2 ^ R)
  have hbyecount : (round1.filter isByeMatch).length = 2 ^ R - ps.length := by
    rw [hbye1, hnone]
  have hlivecount : liveCount round1 = ps.length - 2 ^ K := by
    have h' := hlive1
    rw [hnone, hr1len] at h'
    have hgt' := hgt
    rw [hKR] at hgt'
    have hle' := hle
    rw [hK, pow_succ] at h' hle'
    omega
  have hok1 : ∀ m ∈ round1, okMatch m := fun m hm => (hall1 m hm).1
  obtain ⟨hdec, hcont⟩ := elim_play_main choice cid tid now K 2
    (round1.length + 1) round1 hr1len hok1
  obtain ⟨hhlen, hhok, hhbye⟩ := elimRoundsAux_head_facts cid tid now (R - 1) 2
    (round1.length + 1) round1 hok1
  refine ⟨?_, ?_, ?_, ?_, ?_, ?_⟩
  · rw [hG, elimRoundsAux_length]
    omega
  · rw [hG, hhlen, hr1len, hKR]
  · intro m hm hb
    rw [hG] at hm
    exact okMatch_bye m (hhok m hm) hb
  · rw [hG, hhbye, hbyecount]
  · rw [hG, hKR, hdec, hK]
  · rw [hG, hKR, hcont, hlivecount]
    have hgt' := hgt
    rw [hKR] at hgt'
    have hpos : 0 < 2 ^ K := Nat.pos_pow_of_pos K (by norm_num)
    omega

/-- C3 counterexample: the seeded single-elimination draw for the three
participants `a, b, c`, fully played (every playable match completed and
its winner propagated), holds 3 matches with a determined winner — the
round-one bye counts too — not the claimed `n - 1 = 2`. -/
theorem claim_C3_counterexample :
    decidedCount (playRounds (fun _ => true)
      (genSeededRounds ["a", "b", "c"] "comp" "tour" "now" 0)) = 3 ∧
    decidedCount (playRounds (fun _ => true)
      (genSeededRounds ["a", "b", "c"] "comp" "tour" "now" 0)) ≠
      ["a", "b", "c"].length - 1 := by
  constructor
  · decide
  · decide

/-- C3 witness: the amended count at the concrete three-participant
draw — `2 ^ ceil_log2 3 - 1 = 3` decided matches, `3 - 1 = 2` of them
contested. -/
theorem claim_C3_witness :
    decidedCount (playRounds (fun _ => true)
      (genSeededRounds ["a", "b", "c"] "comp" "tour" "now" 0)) =
      2 ^ ceil_log2 (["a", "b", "c"] : List String).length - 1 ∧
    contestedCount (playRounds (fun _ => true)
      (genSeededRounds ["a", "b", "c"] "comp" "tour" "now" 0)) =
      (["a", "b", "c"] : List String).length - 1 :=
  ⟨(claim_C3_amended (fun _ => true) ["a", "b", "c"] "comp" "tour" "now"
      (by decide) (by decide)).2.2.2.2.1,
   (claim_C3_amended (fun _ => true) ["a", "b", "c"] "comp" "tour" "now"
      (by decide) (by decide)).2.2.2.2.2⟩

end RallyDesk
